import Mathlib

/-!
Verification of the resilient data-acquisition engine of the sentinel
repository (src/main.py) against its natural-language specification.

The development shallowly embeds the three decision-bearing components of
the source file:

* `fetch_with_retry` (src/main.py lines 147-389): retry, backoff,
  pagination, alternate-endpoint and fallback-base-URL logic.  The HTTP
  transport is abstracted as an oracle `Nat → HttpResult` giving the
  outcome of the n-th HTTP request; the embedding records every issued
  request and every sleep in an explicit `FetchSt` trace state.
* `create_dataframe` (lines 391-474): the normalization fallback ladder.
  The pandas library is abstracted as a `Pandas` record of fallible
  table constructors; exceptions are modelled with `Except`.
* `main` (lines 494-556): the per-dataset collection orchestration and
  summary reporting.

Python while-loops are embedded as structural recursion on an explicit
fuel argument; each loop in the source has a hard iteration bound
(`MAX_RETRIES` for retry loops, `max_pages` for pagination loops) and the
fuel is initialised to exactly that bound, so the fuel-0 case coincides
with the loop-guard exit of the source.  Durations (Python floats) are
modelled as exact unnormalised rationals `Dur`; every duration occurring
in the source (1/25, 1/2, 2/25, 1, 2, 4, ...) is represented exactly.
-/

namespace Sentinel

/-- JSON-like values, the payload shape handled by the source. -/
inductive Val where
  | null
  | bool (b : Bool)
  | num (n : Int)
  | str (s : String)
  | list (xs : List Val)
  | dict (fs : List (String × Val))
deriving Repr, Inhabited

/-- Exact nonnegative rational duration in seconds, numerator over
denominator, not normalised.  Models the Python float durations of the
source exactly (all values in the source are small exact rationals). -/
structure Dur where
  n : Nat
  d : Nat
deriving Repr, DecidableEq

/-- Comparison a ≤ b by cross multiplication. -/
def Dur.leD (a b : Dur) : Bool := a.n * b.d ≤ b.n * a.d

/-- Python max of two durations. -/
def Dur.maxD (a b : Dur) : Dur := if leD b a then a else b

/-- Doubling, used for the 429 sleep-time escalation. -/
def Dur.double (a : Dur) : Dur := ⟨2 * a.n, a.d⟩

/-- Reciprocal, used for sleep_time = 1.0 / rate_limit. -/
def Dur.inv (a : Dur) : Dur := ⟨a.d, a.n⟩

/-- Positivity test, used for the rate_limit > 0 guard. -/
def Dur.pos (a : Dur) : Bool := decide (0 < a.n) && decide (0 < a.d)

/-- Does the needle match at the head of the haystack? -/
def matchAt : List Char → List Char → Bool
  | [], _ => true
  | _ :: _, [] => false
  | c :: cs, h :: hs => c = h && matchAt cs hs

/-- Substring search on character lists. -/
def hasSubAux (needle : List Char) : List Char → Bool
  | [] => needle.isEmpty
  | h :: hs => matchAt needle (h :: hs) || hasSubAux needle hs

/-- Python `needle in hay` substring containment. -/
def containsSub (hay needle : String) : Bool := hasSubAux needle.toList hay.toList

/-- Python dict assignment d[k] = v on an insertion-ordered association
list: an existing key keeps its position and gets the new value, a new
key is appended. -/
def dictInsert : List (String × Val) → String → Val → List (String × Val)
  | [], k, v => [(k, v)]
  | (k1, v1) :: rest, k, v =>
    if k1 == k then (k1, v) :: rest else (k1, v1) :: dictInsert rest k v

/- === src/main.py lines 56-67: API request settings === -/

def MAX_RETRIES : Nat := 3

def RETRY_DELAY : Nat := 2

def REQUEST_DELAY : Dur := ⟨1, 1⟩

/-- Safety limit on pagination, source line 173. -/
def maxPages : Nat := 100

/-- Rate-limit table (calls per second), in source dict order. -/
def RATE_LIMITS : List (String × Dur) :=
  [("agents", ⟨25, 1⟩), ("threats", ⟨25, 1⟩), ("cloud-detection/rules", ⟨1, 2⟩),
   ("threat-intelligence", ⟨2, 25⟩), ("default", ⟨1, 1⟩)]

/-- Source lines 150-158: first RATE_LIMITS key occurring as a substring
of the endpoint wins; otherwise RATE_LIMITS.get("default", 1). -/
def resolveRateLimit (endpoint : String) (rateLimit : Option Dur) : Dur :=
  match rateLimit with
  | some r => r
  | none =>
    match RATE_LIMITS.find? (fun kv => containsSub endpoint kv.1) with
    | some kv => kv.2
    | none => ⟨1, 1⟩

/-- Outcome of one HTTP GET, as classified by the except-clauses of the
source: a parsed success body (data field plus optional pagination
cursor), an HTTPError with a status code raised by raise_for_status, a
ConnectionError/Timeout, or any other unexpected exception (JSON parse
faults and the like). -/
inductive HttpResult where
  | success (data : List Val) (nextCursor : Option String)
  | httpError (status : Nat)
  | connFault
  | unexpectedFault
deriving Repr

/-- One recorded HTTP request: full URL and query parameters. -/
structure Request where
  url : String
  params : List (String × Val)
deriving Repr

/-- One recorded time.sleep: retry backoff (integer seconds) or a
rate-governed inter-request delay. -/
inductive SleepEvent where
  | backoff (secs : Nat)
  | rate (secs : Dur)
deriving Repr

/-- Observable trace state threaded through the fetch: the index of the
next HTTP call (consumed from the transport oracle), the requests issued
so far, the sleeps performed so far, the current mutable sleep_time, and
whether a max-page truncation warning was logged. -/
structure FetchSt where
  callIdx : Nat
  reqs : List Request
  sleeps : List SleepEvent
  sleepTime : Dur
  truncWarn : Bool
deriving Repr

def recordSleep (st : FetchSt) (e : SleepEvent) : FetchSt :=
  { st with sleeps := st.sleeps ++ [e] }

def recordCall (st : FetchSt) (url : String) (ps : List (String × Val)) : FetchSt :=
  { st with callIdx := st.callIdx + 1, reqs := st.reqs ++ [⟨url, ps⟩] }

/-- Python truthiness of the pagination cursor (None and the empty
string are falsy). -/
def truthyCursor : Option String → Bool
  | none => false
  | some s => !s.isEmpty

/-- Source lines 182-186: current_params = params.copy() plus the cursor
when one is in effect. -/
def mkParams (params : Option (List (String × Val))) (cursor : Option String) :
    List (String × Val) :=
  match cursor with
  | some c => dictInsert (params.getD []) "cursor" (.str c)
  | none => params.getD []

/-- Source lines 196-198: delay before a request when this is a retry or
a page beyond the first. -/
def preSleep (st : FetchSt) (attempts pageCount : Nat) : FetchSt :=
  if attempts > 0 || pageCount > 1 then
    recordSleep st (.rate (Dur.maxD st.sleepTime REQUEST_DELAY))
  else st

/-- Result of the inner retry loop for one page of the primary endpoint
(source lines 189-262). -/
inductive PageResult where
  | gotPage (data : List Val) (nextCursor : Option String)
  | authFail
  | unexpected
  | primary404
  | exhausted
deriving Repr

/-- Source lines 189-262: the retry loop for one page of the primary
endpoint.  `fuel` is MAX_RETRIES - attempts, so fuel 0 is exactly the
loop-guard exit `while attempts < MAX_RETRIES`. -/
def primaryRetry (trans : Nat → HttpResult) (url : String) (ps : List (String × Val))
    (pageCount : Nat) (haveAlts : Bool) (st : FetchSt) (attempts : Nat) :
    Nat → FetchSt × PageResult
  | 0 => (st, .exhausted)
  | fuel + 1 =>
    let st1 := preSleep st attempts pageCount
    let res := trans st1.callIdx
    let st2 := recordCall st1 url ps
    let step : FetchSt → FetchSt × PageResult := fun stX =>
      if attempts + 1 < MAX_RETRIES then
        primaryRetry trans url ps pageCount haveAlts
          (recordSleep stX (.backoff (RETRY_DELAY * 2 ^ attempts))) (attempts + 1) fuel
      else (stX, .exhausted)
    match res with
    | .success data nc => (st2, .gotPage data nc)
    | .unexpectedFault => (st2, .unexpected)
    | .connFault => step st2
    | .httpError status =>
      if status == 401 then (st2, .authFail)
      else if status == 403 then (st2, .authFail)
      else if status == 429 then step { st2 with sleepTime := st2.sleepTime.double }
      else if status == 404 && haveAlts && attempts == MAX_RETRIES - 1 && pageCount == 1 then
        (st2, .primary404)
      else step st2

/-- Terminal result of the primary-endpoint pagination loop (source
lines 176-266): loop exit via break (with the primary_failed flag), the
immediate empty return on 401/403, or the immediate return of the data
accumulated so far on an unexpected fault. -/
inductive PrimaryOutcome where
  | done (allData : List Val) (primaryFailed : Bool)
  | authReturn
  | unexpectedReturn (allData : List Val)
deriving Repr

/-- Source lines 176-266: the pagination loop over the primary endpoint.
`fuel` is max_pages - page_count, so fuel 0 is exactly the page-ceiling
break of lines 177-179 (which logs the truncation warning). -/
def primaryPages (trans : Nat → HttpResult) (url : String)
    (params : Option (List (String × Val))) (paginate : Bool) (haveAlts : Bool)
    (st : FetchSt) (allData : List Val) (nextCursor : Option String) (pageCount : Nat) :
    Nat → FetchSt × PrimaryOutcome
  | 0 => ({ st with truncWarn := true }, .done allData false)
  | fuel + 1 =>
    let cursor : Option String :=
      if paginate && truthyCursor nextCursor then nextCursor else none
    let ps := mkParams params cursor
    match primaryRetry trans url ps (pageCount + 1) haveAlts st 0 MAX_RETRIES with
    | (st2, .authFail) => (st2, .authReturn)
    | (st2, .unexpected) => (st2, .unexpectedReturn allData)
    | (st2, .primary404) => (st2, .done allData true)
    | (st2, .exhausted) =>
      if !paginate || !truthyCursor nextCursor then (st2, .done allData false)
      else primaryPages trans url params paginate haveAlts st2 allData nextCursor
        (pageCount + 1) fuel
    | (st2, .gotPage data nc) =>
      let allData2 := allData ++ data
      let nextCursor2 := if paginate then nc else nextCursor
      if !paginate || !truthyCursor nextCursor2 then (st2, .done allData2 false)
      else primaryPages trans url params paginate haveAlts st2 allData2 nextCursor2
        (pageCount + 1) fuel

/-- Source lines 295-297: the alternate/fallback loops sleep the plain
sleep_time before every page after the first. -/
def altPreSleep (st : FetchSt) (pageCount : Nat) : FetchSt :=
  if pageCount + 1 > 1 then recordSleep st (.rate st.sleepTime) else st

/-- Result of one alternate-endpoint (or fallback-URL) attempt: the
whole attempt is wrapped in one try/except, so any fault abandons the
candidate (and its partially accumulated records) and the caller
continues with the next candidate. -/
inductive AltOutcome where
  | returned (data : List Val)
  | failed
deriving Repr

/-- Source lines 277-325 (and the structurally identical lines 336-384
for fallback URLs): the pagination loop over one alternate candidate.
No retry loop here: a single fault of any kind fails the candidate. -/
def altPages (trans : Nat → HttpResult) (url : String)
    (params : Option (List (String × Val))) (paginate : Bool)
    (st : FetchSt) (acc : List Val) (nextCursor : Option String) (pageCount : Nat) :
    Nat → FetchSt × AltOutcome
  | 0 => ({ st with truncWarn := true }, .returned acc)
  | fuel + 1 =>
    let cursor : Option String :=
      if paginate && truthyCursor nextCursor then nextCursor else none
    let ps := mkParams params cursor
    let st1 := altPreSleep st pageCount
    let res := trans st1.callIdx
    let st2 := recordCall st1 url ps
    match res with
    | .success data nc =>
      let acc2 := acc ++ data
      if paginate && truthyCursor nc then
        altPages trans url params paginate st2 acc2 nc (pageCount + 1) fuel
      else (st2, .returned acc2)
    | _ => (st2, .failed)

/-- Source lines 273-328: walk the alternate endpoints in configured
order; the first candidate that completes without a fault returns its
accumulated data (even when empty). -/
def tryAlts (trans : Nat → HttpResult) (base : String)
    (params : Option (List (String × Val))) (paginate : Bool) (st : FetchSt) :
    List String → FetchSt × Option (List Val)
  | [] => (st, none)
  | a :: rest =>
    match altPages trans (base ++ a) params paginate st [] none 0 maxPages with
    | (st2, .returned d) => (st2, some d)
    | (st2, .failed) => tryAlts trans base params paginate st2 rest

/-- Source lines 330-387: walk the fallback base URLs in configured
order, requesting the primary path on each. -/
def tryFallbacks (trans : Nat → HttpResult) (endpoint : String)
    (params : Option (List (String × Val))) (paginate : Bool) (st : FetchSt) :
    List String → FetchSt × Option (List Val)
  | [] => (st, none)
  | f :: rest =>
    match altPages trans (f ++ endpoint) params paginate st [] none 0 maxPages with
    | (st2, .returned d) => (st2, some d)
    | (st2, .failed) => tryFallbacks trans endpoint params paginate st2 rest

/-- The inputs of fetch_with_retry: its five parameters (source line
147) together with the module-level BASE_URL and FALLBACK_URLS globals
it reads.  alt_endpoints None is modelled as the empty list (both are
falsy at every use site). -/
structure FetchConfig where
  endpoint : String
  params : Option (List (String × Val))
  alt_endpoints : List String
  paginate : Bool
  rate_limit : Option Dur
  baseUrl : String
  fallbackUrls : List String
deriving Repr

/-- Source lines 149-162: resolved sleep_time and the initial trace
state of one fetch_with_retry call. -/
def initSt (cfg : FetchConfig) : FetchSt :=
  let rl := resolveRateLimit cfg.endpoint cfg.rate_limit
  { callIdx := 0, reqs := [], sleeps := [],
    sleepTime := if rl.pos then rl.inv else ⟨1, 1⟩, truncWarn := false }

/-- The primary-endpoint phase of fetch_with_retry: source lines
164-266 applied to the initial state. -/
def primaryPhase (trans : Nat → HttpResult) (cfg : FetchConfig) :
    FetchSt × PrimaryOutcome :=
  primaryPages trans (cfg.baseUrl ++ cfg.endpoint) cfg.params cfg.paginate
    (!cfg.alt_endpoints.isEmpty) (initSt cfg) [] none 0 maxPages

/-- Source lines 268-389: what fetch_with_retry does after the primary
pagination loop finishes: return accumulated data if any, otherwise walk
the alternate endpoints and then the fallback base URLs, but only when
the primary endpoint failed with the specific page-1-404 condition. -/
def afterPrimary (trans : Nat → HttpResult) (cfg : FetchConfig) (st : FetchSt) :
    PrimaryOutcome → FetchSt × List Val
  | .authReturn => (st, [])
  | .unexpectedReturn d => (st, d)
  | .done d primaryFailed =>
    if !d.isEmpty then (st, d)
    else
      let afterAlts :=
        if primaryFailed && !cfg.alt_endpoints.isEmpty then
          tryAlts trans cfg.baseUrl cfg.params cfg.paginate st cfg.alt_endpoints
        else (st, none)
      match afterAlts with
      | (st2, some d2) => (st2, d2)
      | (st2, none) =>
        if primaryFailed && !cfg.fallbackUrls.isEmpty then
          match tryFallbacks trans cfg.endpoint cfg.params cfg.paginate st2
              cfg.fallbackUrls with
          | (st3, some d3) => (st3, d3)
          | (st3, none) => (st3, [])
        else (st2, [])

/-- Source lines 147-389: fetch_with_retry, returning the final trace
state and the record sequence handed back to the caller. -/
def fetch_with_retry (trans : Nat → HttpResult) (cfg : FetchConfig) :
    FetchSt × List Val :=
  afterPrimary trans cfg (primaryPhase trans cfg).1 (primaryPhase trans cfg).2

/- === src/main.py lines 96-131: BASE_URL / FALLBACK_URLS module setup === -/

/-- Fallback API versions considered by the source, line 108. -/
def FALLBACK_VERSIONS : List String := ["v2.1", "v2.0", "v2"]

/-- Source lines 97-102 and 130: the effective BASE_URL, either pinned
by the operator through the environment or auto-configured from region
and API version. -/
def baseUrlFor (envBase : Option String) (region apiVersion : String) : String :=
  match envBase with
  | some b => b
  | none => "https://" ++ region ++ ".sentinelone.net/web/api/" ++ apiVersion

/-- Source lines 108-111 and 131: FALLBACK_URLS is empty whenever the
operator pinned an explicit BASE_URL; otherwise it lists the remaining
API versions (the active one removed) on the same region host. -/
def fallbackUrlsFor (envBase : Option String) (region apiVersion : String) :
    List String :=
  match envBase with
  | some _ => []
  | none =>
    (FALLBACK_VERSIONS.erase apiVersion).map
      (fun v => "https://" ++ region ++ ".sentinelone.net/web/api/" ++ v)

/-- The ordered candidate list of full URLs that fetch_with_retry can
direct requests at: primary path on the primary base, then each
alternate path on the primary base in configured order, then the primary
path on each fallback base in configured order. -/
def candidateUrls (cfg : FetchConfig) : List String :=
  (cfg.baseUrl ++ cfg.endpoint) ::
    (cfg.alt_endpoints.map (fun a => cfg.baseUrl ++ a) ++
      cfg.fallbackUrls.map (fun f => f ++ cfg.endpoint))

/- === src/main.py lines 391-474: create_dataframe === -/

/-- Python truthiness of a JSON value (used by `if not data`). -/
def Val.truthy : Val → Bool
  | .null => false
  | .bool b => b
  | .num n => n != 0
  | .str s => !s.isEmpty
  | .list xs => !xs.isEmpty
  | .dict fs => !fs.isEmpty

def Val.isDict : Val → Bool
  | .dict _ => true
  | _ => false

def Val.isStr : Val → Bool
  | .str _ => true
  | _ => false

def Val.fieldsOf : Val → List (String × Val)
  | .dict fs => fs
  | _ => []

mutual

/-- Python str() of a JSON-derived value (containers rendered without
the quoting of repr; no claim depends on the exact rendering). -/
def Val.pyStr : Val → String
  | .null => "None"
  | .bool true => "True"
  | .bool false => "False"
  | .num n => toString n
  | .str s => s
  | .list xs => "[" ++ pyStrList xs ++ "]"
  | .dict fs => "\x7b" ++ pyStrFields fs ++ "\x7d"

def pyStrList : List Val → String
  | [] => ""
  | [v] => v.pyStr
  | v :: rest => v.pyStr ++ ", " ++ pyStrList rest

def pyStrFields : List (String × Val) → String
  | [] => ""
  | [(k, v)] => k ++ ": " ++ v.pyStr
  | (k, v) :: rest => k ++ ": " ++ v.pyStr ++ ", " ++ pyStrFields rest

end

/-- One row of a tabular dataset: insertion-ordered mapping from column
name to cell value. -/
abbrev Row := List (String × Val)

/-- A tabular dataset as its list of rows. -/
abbrev Table := List Row

/-- The fallible pandas table constructors used by create_dataframe.
pandas is an external library (not part of this repository), so both
constructors are abstract: any behaviour, including failure on any
input, is possible where a claim quantifies over `Pandas`. -/
structure Pandas where
  dataFrame : Val → Except Unit Table
  jsonNormalize : Val → Except Unit Table

/-- Source lines 402-408: coercion of non-list data in the sites
branch. -/
def coerceSites : Val → List Val
  | .list xs => xs
  | .dict fs => [.dict fs]
  | v => [.dict [("data", v)]]

/-- Source lines 419-426: one-level structural flattening of a record:
mapping-valued keys are expanded to key_subkey entries, other values are
kept as-is.  Built with Python dict-assignment semantics. -/
def flattenItem (fs : List (String × Val)) : List (String × Val) :=
  fs.foldl (fun acc kv =>
    match kv.2 with
    | .dict g =>
      g.foldl (fun acc2 kv2 => dictInsert acc2 (kv.1 ++ "_" ++ kv2.1) kv2.2) acc
    | v => dictInsert acc kv.1 v) []

/-- Source lines 411-427: flat_data, skipping non-mapping items. -/
def sitesFlatData (xs : List Val) : List (List (String × Val)) :=
  (xs.filter Val.isDict).map (fun v => flattenItem v.fieldsOf)

/-- Source lines 399-456: the sites-specific normalization ladder:
structural flattening, then pandas json_normalize, then the
string-list/stringification sinks.  An error value models an exception
escaping to the outer handler of line 472. -/
def createDataframeSites (pd : Pandas) (data0 : Val) : Except Unit Table :=
  let xs := coerceSites data0
  let flat := sitesFlatData xs
  let stepA : Except Unit Table :=
    if !flat.isEmpty then pd.dataFrame (.list (flat.map Val.dict))
    else .error ()
  match stepA with
  | .ok t => .ok t
  | .error _ =>
    match pd.jsonNormalize (.list xs) with
    | .ok t => .ok t
    | .error _ =>
      if xs.all Val.isStr then pd.dataFrame (.dict [("name", .list xs)])
      else pd.dataFrame (.list (xs.map (fun d => .dict [("data", .str d.pyStr)])))

/-- Source lines 393-471: the body of the outer try of
create_dataframe: the empty-input early return, the sites ladder, and
the default DataFrame/json_normalize/empty ladder for every other
dataset. -/
def createDataframeBody (pd : Pandas) (data : Val) (name : String) :
    Except Unit Table :=
  if !data.truthy then .ok []
  else if name == "sites" then createDataframeSites pd data
  else
    match pd.dataFrame data with
    | .ok t => .ok t
    | .error _ =>
      match pd.jsonNormalize data with
      | .ok t => .ok t
      | .error _ => .ok []

/-- Source lines 391-474: create_dataframe.  The result is an `Except`
so that an exception escaping the function would be observable as an
error value; the outer except of lines 472-474 maps any fault of the
body to an empty table. -/
def create_dataframe (pd : Pandas) (data : Val) (name : String) :
    Except Unit Table :=
  match createDataframeBody pd data name with
  | .ok t => .ok t
  | .error _ => .ok []

/-- Modelled from the spec: the pandas library is not part of this
repository, so a concrete instance is needed for concrete runs.  On a
list of mappings, DataFrame keeps one row per mapping with cell values
as-is (spec: rows are mappings from column name to value; the tabular
sink can hold structured values); on a one-column dict it builds a
single-column table (spec: a scalar/string list is projected onto a
single column); other shapes fail.  json_normalize flattens one level
of nesting into dotted column names.  Column-union padding of missing
cells is not modelled; no claim depends on it. -/
def stdDataFrame : Val → Except Unit Table
  | .list xs => if xs.all Val.isDict then .ok (xs.map Val.fieldsOf) else .error ()
  | .dict [(k, .list vs)] => .ok (vs.map (fun v => [(k, v)]))
  | _ => .error ()

/-- Modelled from the spec: one-level dotted-key flattening of a record,
the shape json_normalize gives on singly-nested mappings. -/
def dotFlatten (fs : List (String × Val)) : List (String × Val) :=
  fs.foldl (fun acc kv =>
    match kv.2 with
    | .dict g =>
      g.foldl (fun acc2 kv2 => dictInsert acc2 (kv.1 ++ "." ++ kv2.1) kv2.2) acc
    | v => dictInsert acc kv.1 v) []

/-- Modelled from the spec: json_normalize on a list of mappings. -/
def stdJsonNormalize : Val → Except Unit Table
  | .list xs =>
    if xs.all Val.isDict then .ok (xs.map (fun v => dotFlatten v.fieldsOf))
    else .error ()
  | _ => .error ()

/-- Standard pandas behaviour, modelled from the spec. -/
def stdPandas : Pandas := ⟨stdDataFrame, stdJsonNormalize⟩

/- === src/main.py lines 476-491 and 133-144 and 494-556 === -/

/-- Source lines 476-491: export_to_csv returns False on an empty table
(export skipped) and otherwise reports whether the filesystem write
succeeded; `writeOk` abstracts the filesystem sink. -/
def export_to_csv (writeOk : String → Bool) (df : Table) (filename : String) : Bool :=
  if df.isEmpty then false else writeOk filename

/-- Destination name for a dataset, source line 540 (the output
directory is plumbing and omitted). -/
def csvName (name : String) : String := "sentinelone_" ++ name ++ ".csv"

/-- One entry of the endpoint catalog, source lines 135-144. -/
structure EndpointCfg where
  endpoint : String
  params : Option (List (String × Val))
  alt_endpoints : List String
  paginate : Bool
  rate_limit : Option Dur
deriving Repr

/-- Source lines 135-144: the full endpoint catalog, in source order. -/
def ENDPOINTS : List (String × EndpointCfg) :=
  [("sites", ⟨"/sites", some [("limit", .num 100)], [], true, none⟩),
   ("policies", ⟨"/policies", some [("limit", .num 100)],
     ["/endpoint-policies", "/policy", "/settings/policies"], true, none⟩),
   ("exclusions", ⟨"/exclusions", some [("limit", .num 100)], [], true, none⟩),
   ("deployments", ⟨"/deployment-packs", some [("limit", .num 100)],
     ["/install-packages", "/installer-packages", "/packages", "/sentinels/installer"],
     true, none⟩),
   ("agents", ⟨"/agents", some [("limit", .num 100)], ["/sentinels"], true,
     some ⟨25, 1⟩⟩),
   ("rules", ⟨"/rules", some [("limit", .num 100)],
     ["/firewall/rules", "/network/rules", "/firewall-rules", "/settings/rules"],
     true, none⟩),
   ("alerts", ⟨"/alerts", some [("limit", .num 100)],
     ["/threats", "/activities", "/detections"], true, some ⟨25, 1⟩⟩),
   ("api_tokens", ⟨"/users/api-token-details", none,
     ["/api-tokens", "/system/api-tokens", "/rbac/api-tokens", "/settings/user/tokens"],
     false, none⟩)]

def lookupEndpoint (e : String) : Option EndpointCfg :=
  (ENDPOINTS.find? (fun kv => kv.1 == e)).map (fun kv => kv.2)

/-- Source lines 507-516: the selected endpoints: the full catalog, or
the requested names in request order, unknown names skipped, duplicates
collapsing onto one dict key. -/
def selectEndpoints (argEndpoints : Option (List String)) :
    List (String × EndpointCfg) :=
  match argEndpoints with
  | none => ENDPOINTS
  | some es =>
    es.foldl (fun acc e =>
      match lookupEndpoint e with
      | some cfg => if acc.any (fun kv => kv.1 == e) then acc else acc ++ [(e, cfg)]
      | none => acc) []

/-- Assemble the fetch_with_retry arguments of source lines 527-533. -/
def toFetchConfig (c : EndpointCfg) (baseUrl : String) (fallbackUrls : List String) :
    FetchConfig :=
  ⟨c.endpoint, c.params, c.alt_endpoints, c.paginate, c.rate_limit, baseUrl, fallbackUrls⟩

/-- Unwrap the create_dataframe result; the error branch is vacuous
because create_dataframe always returns a table. -/
def dfValue : Except Unit Table → Table
  | .ok t => t
  | .error _ => []

/-- The observable outcome of one run of main, source lines 494-556. -/
structure MainRes where
  collection_status : List (String × Bool)
  dataframes : List (String × Table)
  success_count : Nat
  summary_total : Nat
  exitCode : Nat
deriving Repr

/-- Source lines 494-556: main.  `trans` gives each dataset its own
transport call stream (the source issues all calls sequentially on one
shared transport; only the per-dataset subsequence is observable to
fetch_with_retry).  `writeOk` abstracts the CSV sink, `argEndpoints`
models --endpoints.  summary_total is the denominator of the final
``Completed with N/M`` log line (line 545), which the source takes from
the full catalog, not the selection. -/
def runMain (trans : String → Nat → HttpResult) (pd : Pandas) (writeOk : String → Bool)
    (baseUrl : String) (fallbackUrls : List String)
    (argEndpoints : Option (List String)) : MainRes :=
  let sel := selectEndpoints argEndpoints
  if sel.isEmpty then ⟨[], [], 0, 0, 1⟩
  else
    let fetched := sel.map (fun kv =>
      (kv.1, (fetch_with_retry (trans kv.1) (toFetchConfig kv.2 baseUrl fallbackUrls)).2))
    let stat := fetched.map (fun kv => (kv.1, !kv.2.isEmpty))
    let dfs := fetched.map (fun kv => (kv.1, dfValue (create_dataframe pd (.list kv.2) kv.1)))
    let cnt := (dfs.filter (fun kv => export_to_csv writeOk kv.2 (csvName kv.1))).length
    ⟨stat, dfs, cnt, ENDPOINTS.length, 0⟩

/- ===================== Verification section ===================== -/

/-- Does a row hold a nested mapping in one of its cells? -/
def rowHasNestedDict (r : Row) : Bool := r.any (fun kv => kv.2.isDict)

/-- Does any row of the table hold a nested mapping? -/
def tableHasNestedDict (t : Table) : Bool := t.any rowHasNestedDict

/-- A record that is a mapping whose mapping-valued fields nest no
further mapping (one level of nesting only). -/
def oneLevelRecord : Val → Bool
  | .dict fs => fs.all (fun kv =>
      match kv.2 with
      | .dict g => g.all (fun kv2 => !kv2.2.isDict)
      | _ => true)
  | _ => false

/-- Every element of a Python dict after an assignment is the assigned
value or an original entry. -/
theorem mem_dictInsert {kv : String × Val} {acc : List (String × Val)} {k : String}
    {v : Val} (h : kv ∈ dictInsert acc k v) : kv.2 = v ∨ kv ∈ acc := by
  induction acc with
  | nil =>
    simp only [dictInsert, List.mem_singleton] at h
    subst h
    exact Or.inl rfl
  | cons hd tl ih =>
    obtain ⟨k1, v1⟩ := hd
    simp only [dictInsert] at h
    by_cases hk : (k1 == k) = true
    · rw [if_pos hk] at h
      rcases List.mem_cons.mp h with h | h
      · subst h; exact Or.inl rfl
      · exact Or.inr (List.mem_cons_of_mem _ h)
    · rw [if_neg hk] at h
      rcases List.mem_cons.mp h with h | h
      · subst h; exact Or.inr (List.mem_cons_self _ _)
      · rcases ih h with h2 | h2
        · exact Or.inl h2
        · exact Or.inr (List.mem_cons_of_mem _ h2)

/-- The inner fold of flattenItem (expansion of one mapping-valued key)
introduces no mapping-valued cell when the subvalues are not mappings. -/
theorem innerFold_no_nested (pre : String) (g : List (String × Val))
    (hg : ∀ kv2 ∈ g, kv2.2.isDict = false) :
    ∀ acc : List (String × Val), (∀ kv ∈ acc, kv.2.isDict = false) →
      ∀ kv ∈ g.foldl
        (fun acc2 kv2 => dictInsert acc2 (pre ++ "_" ++ kv2.1) kv2.2) acc,
        kv.2.isDict = false := by
  induction g with
  | nil => intro acc hacc kv hkv; exact hacc kv hkv
  | cons hd tl ih =>
    intro acc hacc kv hkv
    refine ih (fun kv2 h2 => hg kv2 (List.mem_cons_of_mem _ h2)) _ ?_ kv hkv
    intro kv3 h3
    rcases mem_dictInsert h3 with h4 | h4
    · rw [h4]; exact hg hd (List.mem_cons_self _ _)
    · exact hacc kv3 h4

/-- Structural flattening of a one-level record leaves no mapping in
any cell. -/
theorem flattenItem_no_nested (fs : List (String × Val))
    (h : ∀ kv ∈ fs, (match kv.2 with
      | .dict g => g.all (fun kv2 => !kv2.2.isDict)
      | _ => true) = true) :
    ∀ kv ∈ flattenItem fs, kv.2.isDict = false := by
  unfold flattenItem
  suffices hgen : ∀ (l : List (String × Val)),
      (∀ kv ∈ l, (match kv.2 with
        | Val.dict g => g.all (fun kv2 => !kv2.2.isDict)
        | _ => true) = true) →
      ∀ acc : List (String × Val), (∀ kv ∈ acc, kv.2.isDict = false) →
      ∀ kv ∈ l.foldl (fun acc kv =>
        match kv.2 with
        | Val.dict g =>
          g.foldl (fun acc2 kv2 => dictInsert acc2 (kv.1 ++ "_" ++ kv2.1) kv2.2) acc
        | v => dictInsert acc kv.1 v) acc, kv.2.isDict = false by
    exact hgen fs h [] (by intro kv hkv; simp at hkv)
  intro l
  induction l with
  | nil => intro _ acc hacc kv hkv; exact hacc kv hkv
  | cons hd tl ih =>
    intro hl acc hacc kv hkv
    refine ih (fun kv2 h2 => hl kv2 (List.mem_cons_of_mem _ h2)) _ ?_ kv hkv
    have hhd := hl hd (List.mem_cons_self _ _)
    cases hv : hd.2 with
    | dict g =>
      rw [hv] at hhd
      simp only [hv]
      refine innerFold_no_nested hd.1 g ?_ acc hacc
      intro kv2 h2
      have := List.all_eq_true.mp hhd kv2 h2
      simpa using this
    | null =>
      simp only [hv]
      intro kv3 h3
      rcases mem_dictInsert h3 with h4 | h4
      · rw [h4]; rfl
      · exact hacc kv3 h4
    | bool b =>
      simp only [hv]
      intro kv3 h3
      rcases mem_dictInsert h3 with h4 | h4
      · rw [h4]; rfl
      · exact hacc kv3 h4
    | num n =>
      simp only [hv]
      intro kv3 h3
      rcases mem_dictInsert h3 with h4 | h4
      · rw [h4]; rfl
      · exact hacc kv3 h4
    | str s =>
      simp only [hv]
      intro kv3 h3
      rcases mem_dictInsert h3 with h4 | h4
      · rw [h4]; rfl
      · exact hacc kv3 h4
    | list xs =>
      simp only [hv]
      intro kv3 h3
      rcases mem_dictInsert h3 with h4 | h4
      · rw [h4]; rfl
      · exact hacc kv3 h4

/-- A one-level record is a mapping. -/
theorem oneLevel_isDict {v : Val} (h : oneLevelRecord v = true) : v.isDict = true := by
  cases v <;> first | rfl | exact absurd h (by simp [oneLevelRecord])

/-- C7: for every input record sequence and every dataset name,
normalization returns a table and never raises, whatever the pandas
constructors do: the result is always an ok table, and the empty input
yields the empty table rather than an error. -/
theorem c7_normalizer_total (pd : Pandas) (data : Val) (name : String) :
    (∃ t, create_dataframe pd data name = .ok t) ∧
      create_dataframe pd (.list []) name = .ok [] := by
  constructor
  · unfold create_dataframe
    cases h : createDataframeBody pd data name with
    | ok t => exact ⟨t, rfl⟩
    | error e => exact ⟨[], rfl⟩
  · rfl

/-- The input of the C8 counterexample: one record with one nested
mapping, for a dataset other than sites. -/
def vC8 : Val := .list [.dict [("a", .dict [("b", .num 1)])]]

/-- C8 fails on the code: for the policies dataset the nested mapping
survives normalization untouched, because the flattening branch of
create_dataframe is only taken when name is sites. -/
theorem c8_counterexample :
    create_dataframe stdPandas vC8 "policies" =
      .ok [[("a", Val.dict [("b", Val.num 1)])]] ∧
    tableHasNestedDict [[("a", Val.dict [("b", Val.num 1)])]] = true :=
  ⟨rfl, rfl⟩

/-- C8 amended: the parent_child flattening is applied only to the
sites dataset.  For sites, given any nonempty sequence of records that
are mappings with at most one level of nesting, normalization flattens
every mapping-valued key into key_subkey columns and no row of the
resulting table contains a nested mapping.  (Other datasets keep nested
mappings, see the counterexample; and doubly nested values pass through
unflattened even for sites.) -/
theorem sitesFlatData_of_dicts (xs : List Val) (hdict : ∀ v ∈ xs, Val.isDict v = true) :
    sitesFlatData xs = xs.map (fun v => flattenItem v.fieldsOf) := by
  unfold sitesFlatData
  rw [List.filter_eq_self.mpr hdict]

/-- The sites branch of create_dataframe on a nonempty list of mappings
takes the structural-flattening path under standard pandas. -/
theorem createDataframeSites_flat (xs : List Val) (hne : xs ≠ [])
    (hdict : ∀ v ∈ xs, Val.isDict v = true) :
    createDataframeSites stdPandas (.list xs) =
      .ok (xs.map (fun v => flattenItem v.fieldsOf)) := by
  have hflat := sitesFlatData_of_dicts xs hdict
  have hflatne : (xs.map (fun v => flattenItem v.fieldsOf)).isEmpty = false := by
    cases xs with
    | nil => exact absurd rfl hne
    | cons a l => rfl
  have hall : ((xs.map (fun v => flattenItem v.fieldsOf)).map Val.dict).all Val.isDict
      = true := by
    simp [List.all_map, Val.isDict, Function.comp]
  have hstd : ∀ ys : List Val, stdDataFrame (.list ys) =
      if ys.all Val.isDict = true then .ok (ys.map Val.fieldsOf) else .error () :=
    fun ys => rfl
  unfold createDataframeSites
  simp only [coerceSites, hflat, hflatne, Bool.not_false, if_true, stdPandas]
  rw [show stdDataFrame (.list ((xs.map (fun v => flattenItem v.fieldsOf)).map Val.dict)) =
      .ok (xs.map (fun v => flattenItem v.fieldsOf)) by
    rw [hstd, hall]
    simp [List.map_map, Val.fieldsOf, Function.comp]]

/-- C8 amended: the parent_child flattening is applied only to the
sites dataset.  For sites, given any nonempty sequence of records that
are mappings with at most one level of nesting, normalization flattens
every mapping-valued key into key_subkey columns and no row of the
resulting table contains a nested mapping.  (Other datasets keep nested
mappings, see the counterexample; and doubly nested values pass through
unflattened even for sites.) -/
theorem c8_amended (xs : List Val) (hne : xs ≠ [])
    (h1 : ∀ v ∈ xs, oneLevelRecord v = true) :
    ∃ t, create_dataframe stdPandas (.list xs) "sites" = .ok t ∧
      tableHasNestedDict t = false := by
  have hdict : ∀ v ∈ xs, Val.isDict v = true := fun v hv => oneLevel_isDict (h1 v hv)
  refine ⟨xs.map (fun v => flattenItem v.fieldsOf), ?_, ?_⟩
  · have htruthy : Val.truthy (.list xs) = true := by
      cases xs with
      | nil => exact absurd rfl hne
      | cons a l => rfl
    unfold create_dataframe createDataframeBody
    rw [htruthy]
    simp only [Bool.not_true, Bool.false_eq_true, if_false, beq_self_eq_true, if_true]
    rw [createDataframeSites_flat xs hne hdict]
  · unfold tableHasNestedDict
    rw [List.any_eq_false]
    intro r hr
    rw [List.mem_map] at hr
    obtain ⟨v, hv, hrv⟩ := hr
    have hone := h1 v hv
    cases v with
    | dict fs =>
      have hone2 : fs.all (fun kv =>
          match kv.2 with
          | Val.dict g => g.all (fun kv2 => !kv2.2.isDict)
          | _ => true) = true := hone
      subst hrv
      unfold rowHasNestedDict
      rw [Bool.not_eq_true, List.any_eq_false]
      intro kv hkv
      have hfields : ∀ kv2 ∈ fs, (match kv2.2 with
          | Val.dict g => g.all (fun kv3 => !kv3.2.isDict)
          | _ => true) = true := fun kv2 h2 => List.all_eq_true.mp hone2 kv2 h2
      simpa using flattenItem_no_nested fs hfields kv hkv
    | null => exact absurd hone (by simp [oneLevelRecord])
    | bool b => exact absurd hone (by simp [oneLevelRecord])
    | num n => exact absurd hone (by simp [oneLevelRecord])
    | str s => exact absurd hone (by simp [oneLevelRecord])
    | list l => exact absurd hone (by simp [oneLevelRecord])

/-- Witness for the amended C8 on a concrete nested record. -/
theorem c8_amended_witness :
    ∃ t, create_dataframe stdPandas
        (.list [.dict [("a", .dict [("b", .num 1)])]]) "sites" = .ok t ∧
      tableHasNestedDict t = false :=
  c8_amended [.dict [("a", .dict [("b", .num 1)])]] (by simp) (by
    intro v hv
    rw [List.mem_singleton] at hv
    subst hv
    rfl)

/-- Is this HTTP outcome an authentication/authorization rejection? -/
def isAuthRes : HttpResult → Bool
  | .httpError s => s == 401 || s == 403
  | _ => false

/- Trace-state bookkeeping lemmas. -/

@[simp] theorem recordSleep_reqs (st : FetchSt) (e : SleepEvent) :
    (recordSleep st e).reqs = st.reqs := rfl

@[simp] theorem recordSleep_callIdx (st : FetchSt) (e : SleepEvent) :
    (recordSleep st e).callIdx = st.callIdx := rfl

@[simp] theorem recordCall_reqs (st : FetchSt) (url : String) (ps : List (String × Val)) :
    (recordCall st url ps).reqs = st.reqs ++ [⟨url, ps⟩] := rfl

@[simp] theorem recordCall_callIdx (st : FetchSt) (url : String) (ps : List (String × Val)) :
    (recordCall st url ps).callIdx = st.callIdx + 1 := rfl

@[simp] theorem preSleep_reqs (st : FetchSt) (a pc : Nat) :
    (preSleep st a pc).reqs = st.reqs := by
  unfold preSleep; split <;> rfl

@[simp] theorem preSleep_callIdx (st : FetchSt) (a pc : Nat) :
    (preSleep st a pc).callIdx = st.callIdx := by
  unfold preSleep; split <;> rfl

/-- Unfold fetch_with_retry at a known primary-phase result. -/
theorem fetch_eq_afterPrimary (trans : Nat → HttpResult) (cfg : FetchConfig)
    (st : FetchSt) (out : PrimaryOutcome) (h : primaryPhase trans cfg = (st, out)) :
    fetch_with_retry trans cfg = afterPrimary trans cfg st out := by
  unfold fetch_with_retry
  rw [h]

/-- A primary pagination loop that breaks without the primary_failed
flag hands its accumulated data straight back: no alternates and no
fallback URLs are consulted. -/
theorem afterPrimary_done_false (trans : Nat → HttpResult) (cfg : FetchConfig)
    (st : FetchSt) (d : List Val) :
    afterPrimary trans cfg st (.done d false) = (st, d) := by
  cases d with
  | nil => rfl
  | cons a l => rfl

/- === C1, C2, C3: concrete refutation scenarios === -/

/-- Dataset shape of the rules catalog entry with two alternates and no
pagination, against a pinned base URL. -/
def cfgC1 : FetchConfig :=
  ⟨"/rules", some [("limit", .num 100)], ["/ruleAlt1", "/ruleAlt2"], false, none,
    "https://h.net/web/api/v2.1", []⟩

/-- Transport for C1: the primary path is 404 three times (exhausting
its retries), the first alternate is rejected with 401, the second
alternate answers with one record. -/
def transC1 : Nat → HttpResult := fun i =>
  if i < 3 then .httpError 404
  else if i = 3 then .httpError 401
  else .success [.num 7] none

/-- C1 fails on the code: the fourth HTTP attempt returns 401, yet the
fetch does not abort: a fifth request is issued to the next alternate
and its record is returned.  The immediate-empty-abort on 401/403 only
governs the primary candidate. -/
theorem c1_counterexample :
    isAuthRes (transC1 3) = true ∧
    (fetch_with_retry transC1 cfgC1).1.reqs.map Request.url =
      ["https://h.net/web/api/v2.1/rules", "https://h.net/web/api/v2.1/rules",
       "https://h.net/web/api/v2.1/rules", "https://h.net/web/api/v2.1/ruleAlt1",
       "https://h.net/web/api/v2.1/ruleAlt2"] ∧
    (fetch_with_retry transC1 cfgC1).2 = [.num 7] :=
  ⟨rfl, rfl, rfl⟩

/-- Configuration for C2: one alternate path is configured. -/
def cfgC2 : FetchConfig :=
  ⟨"/policies", some [("limit", .num 100)], ["/endpoint-policies"], false, none,
    "https://h.net/web/api/v2.1", []⟩

/-- Transport for C2: every call is a connection fault. -/
def transC2 : Nat → HttpResult := fun _ => .connFault

/-- C2 fails on the code: when the primary candidate exhausts its three
retries on generic transient faults, fetch_with_retry returns the empty
sequence at once; the configured alternate is never requested, because
the alternate walk is gated on the specific 404-on-page-1 flag. -/
theorem c2_counterexample :
    (fetch_with_retry transC2 cfgC2).2 = [] ∧
    (fetch_with_retry transC2 cfgC2).1.reqs.map Request.url =
      ["https://h.net/web/api/v2.1/policies", "https://h.net/web/api/v2.1/policies",
       "https://h.net/web/api/v2.1/policies"] :=
  ⟨rfl, rfl⟩

/-- Configuration for C3: a paginated dataset with no alternates. -/
def cfgC3 : FetchConfig :=
  ⟨"/sites", some [("limit", .num 100)], [], true, none,
    "https://h.net/web/api/v2.1", []⟩

/-- Transport for C3: page 1 succeeds with two records and a cursor,
page 2 hits an unexpected (fatal, non-retried) fault. -/
def transC3 : Nat → HttpResult := fun i =>
  if i = 0 then .success [.num 1, .num 2] (some "c") else .unexpectedFault

/-- C3 fails on the code: the candidate ends in a fatal fault on page 2,
yet the records accumulated from page 1 are returned rather than
discarded, so the record sequence is nonempty although the only tried
candidate failed fatally. -/
theorem c3_counterexample :
    (primaryPhase transC3 cfgC3).2 = .unexpectedReturn [.num 1, .num 2] ∧
    (fetch_with_retry transC3 cfgC3).2 = [.num 1, .num 2] :=
  ⟨rfl, rfl⟩

/-- C3 amended: partial accumulation is kept, not discarded: when the
primary candidate aborts with an unexpected fault, fetch_with_retry
returns exactly the records accumulated from the completed earlier
pages; and whenever the primary pagination loop breaks holding a
nonempty accumulation (for example retries exhausted on a later page),
that accumulation is returned.  Consequently the returned sequence can
be nonempty although every tried candidate failed, and (since a
successful candidate can also return zero records) emptiness of the
result is not equivalent to all-candidates-failed. -/
theorem c3_amended (trans : Nat → HttpResult) (cfg : FetchConfig) (st : FetchSt)
    (d : List Val) (pf : Bool) :
    (primaryPhase trans cfg = (st, .unexpectedReturn d) →
      fetch_with_retry trans cfg = (st, d)) ∧
    (primaryPhase trans cfg = (st, .done d pf) → d ≠ [] →
      fetch_with_retry trans cfg = (st, d)) := by
  constructor
  · intro h
    rw [fetch_eq_afterPrimary trans cfg st _ h]
    rfl
  · intro h hne
    rw [fetch_eq_afterPrimary trans cfg st _ h]
    cases d with
    | nil => exact absurd rfl hne
    | cons a l => rfl

/-- Witness for the amended C3: the partial page-1 records of the C3
scenario are returned. -/
theorem c3_amended_witness :
    fetch_with_retry transC3 cfgC3 = ((primaryPhase transC3 cfgC3).1, [.num 1, .num 2]) :=
  (c3_amended transC3 cfgC3 (primaryPhase transC3 cfgC3).1 [.num 1, .num 2] false).1 rfl

/- === Trace lemmas: what each loop appends to the request ledger === -/

@[simp] theorem altPreSleep_reqs (st : FetchSt) (pc : Nat) :
    (altPreSleep st pc).reqs = st.reqs := by
  unfold altPreSleep; split <;> rfl

@[simp] theorem altPreSleep_callIdx (st : FetchSt) (pc : Nat) :
    (altPreSleep st pc).callIdx = st.callIdx := by
  unfold altPreSleep; split <;> rfl

/-- The retry loop of one primary page appends at most fuel identical
requests (same URL, same parameters) and advances the call counter by
exactly that number. -/
theorem primaryRetry_trace (trans : Nat → HttpResult) (url : String)
    (ps : List (String × Val)) (pc : Nat) (ha : Bool) :
    ∀ (fuel : Nat) (st : FetchSt) (a : Nat), ∃ k, k ≤ fuel ∧
      (primaryRetry trans url ps pc ha st a fuel).1.reqs
        = st.reqs ++ List.replicate k (⟨url, ps⟩ : Request) ∧
      (primaryRetry trans url ps pc ha st a fuel).1.callIdx = st.callIdx + k := by
  intro fuel
  induction fuel with
  | zero =>
    intro st a
    exact ⟨0, Nat.le_refl 0, by simp [primaryRetry], by simp [primaryRetry]⟩
  | succ fuel ih =>
    intro st a
    have hstep : ∀ stX : FetchSt, stX.reqs = st.reqs ++ [(⟨url, ps⟩ : Request)] →
        stX.callIdx = st.callIdx + 1 →
        ∃ k, k ≤ fuel + 1 ∧
          (if a + 1 < MAX_RETRIES then
            primaryRetry trans url ps pc ha
              (recordSleep stX (.backoff (RETRY_DELAY * 2 ^ a))) (a + 1) fuel
           else (stX, PageResult.exhausted)).1.reqs
            = st.reqs ++ List.replicate k (⟨url, ps⟩ : Request) ∧
          (if a + 1 < MAX_RETRIES then
            primaryRetry trans url ps pc ha
              (recordSleep stX (.backoff (RETRY_DELAY * 2 ^ a))) (a + 1) fuel
           else (stX, PageResult.exhausted)).1.callIdx = st.callIdx + k := by
      intro stX hreqs hcall
      by_cases hlt : a + 1 < MAX_RETRIES
      · obtain ⟨k, hk, hr2, hc2⟩ :=
          ih (recordSleep stX (.backoff (RETRY_DELAY * 2 ^ a))) (a + 1)
        refine ⟨k + 1, by omega, ?_, ?_⟩
        · rw [if_pos hlt, hr2]
          simp [hreqs, List.replicate_succ, List.append_assoc]
        · rw [if_pos hlt, hc2]
          simp [hcall]
          omega
      · exact ⟨1, by omega, by rw [if_neg hlt]; simpa using hreqs,
          by rw [if_neg hlt]; simpa using hcall⟩
    cases htr : trans st.callIdx with
    | success data nc =>
      exact ⟨1, by omega, by simp [primaryRetry, htr], by simp [primaryRetry, htr]⟩
    | unexpectedFault =>
      exact ⟨1, by omega, by simp [primaryRetry, htr], by simp [primaryRetry, htr]⟩
    | connFault =>
      have hg : primaryRetry trans url ps pc ha st a (fuel + 1) =
          (if a + 1 < MAX_RETRIES then
            primaryRetry trans url ps pc ha
              (recordSleep (recordCall (preSleep st a pc) url ps)
                (.backoff (RETRY_DELAY * 2 ^ a))) (a + 1) fuel
           else (recordCall (preSleep st a pc) url ps, PageResult.exhausted)) := by
        simp [primaryRetry, htr]
      rw [hg]
      exact hstep _ (by simp) (by simp)
    | httpError s =>
      have hg : primaryRetry trans url ps pc ha st a (fuel + 1) =
          (if (s == 401) = true then
            (recordCall (preSleep st a pc) url ps, PageResult.authFail)
          else if (s == 403) = true then
            (recordCall (preSleep st a pc) url ps, PageResult.authFail)
          else if (s == 429) = true then
            (if a + 1 < MAX_RETRIES then
              primaryRetry trans url ps pc ha
                (recordSleep { recordCall (preSleep st a pc) url ps with
                  sleepTime := (recordCall (preSleep st a pc) url ps).sleepTime.double }
                  (.backoff (RETRY_DELAY * 2 ^ a))) (a + 1) fuel
             else ({ recordCall (preSleep st a pc) url ps with
                  sleepTime := (recordCall (preSleep st a pc) url ps).sleepTime.double },
               PageResult.exhausted))
          else if (s == 404 && ha && a == MAX_RETRIES - 1 && pc == 1) = true then
            (recordCall (preSleep st a pc) url ps, PageResult.primary404)
          else
            (if a + 1 < MAX_RETRIES then
              primaryRetry trans url ps pc ha
                (recordSleep (recordCall (preSleep st a pc) url ps)
                  (.backoff (RETRY_DELAY * 2 ^ a))) (a + 1) fuel
             else (recordCall (preSleep st a pc) url ps, PageResult.exhausted))) := by
        simp [primaryRetry, htr]
      rw [hg]
      split
      · exact ⟨1, by omega, by simp, by simp⟩
      · split
        · exact ⟨1, by omega, by simp, by simp⟩
        · split
          · exact hstep _ (by simp) (by simp)
          · split
            · exact ⟨1, by omega, by simp, by simp⟩
            · exact hstep _ (by simp) (by simp)

/-- The primary pagination loop appends only requests aimed at the
primary URL, at most MAX_RETRIES of them per page of fuel, and advances
the call counter by exactly the number of appended requests. -/
theorem primaryPages_trace (trans : Nat → HttpResult) (url : String)
    (params : Option (List (String × Val))) (paginate : Bool) (ha : Bool) :
    ∀ (fuel : Nat) (st : FetchSt) (allData : List Val) (nc : Option String) (pc : Nat),
      ∃ l : List Request,
        (primaryPages trans url params paginate ha st allData nc pc fuel).1.reqs
          = st.reqs ++ l ∧
        (∀ r ∈ l, r.url = url) ∧
        (primaryPages trans url params paginate ha st allData nc pc fuel).1.callIdx
          = st.callIdx + l.length ∧
        l.length ≤ MAX_RETRIES * fuel := by
  intro fuel
  induction fuel with
  | zero =>
    intro st allData nc pc
    exact ⟨[], by simp [primaryPages], by simp, by simp [primaryPages], by simp⟩
  | succ fuel ih =>
    intro st allData nc pc
    have hM : MAX_RETRIES = 3 := rfl
    obtain ⟨k, hk, hr, hc⟩ := primaryRetry_trace trans url
      (mkParams params (if paginate = true ∧ truthyCursor nc = true then nc else none))
      (pc + 1) ha MAX_RETRIES st 0
    rcases hpr : primaryRetry trans url
        (mkParams params (if paginate = true ∧ truthyCursor nc = true then nc else none))
        (pc + 1) ha st 0 MAX_RETRIES with ⟨st2, r⟩
    rw [hpr] at hr hc
    have hrepl : ∀ rq ∈ List.replicate k
        (⟨url, mkParams params
          (if paginate = true ∧ truthyCursor nc = true then nc else none)⟩
          : Request), rq.url = url := by
      intro rq hm
      rw [List.eq_of_mem_replicate hm]
    have hlen1 : (List.replicate k
        (⟨url, mkParams params
          (if paginate = true ∧ truthyCursor nc = true then nc else none)⟩
          : Request)).length ≤ MAX_RETRIES * (fuel + 1) := by
      simp only [List.length_replicate]
      rw [hM] at hk ⊢
      omega
    cases r with
    | authFail =>
      have hg : primaryPages trans url params paginate ha st allData nc pc (fuel + 1)
          = (st2, .authReturn) := by
        simp [primaryPages, hpr]
      exact ⟨_, by rw [hg]; exact hr, hrepl, by rw [hg]; simpa using hc, hlen1⟩
    | unexpected =>
      have hg : primaryPages trans url params paginate ha st allData nc pc (fuel + 1)
          = (st2, .unexpectedReturn allData) := by
        simp [primaryPages, hpr]
      exact ⟨_, by rw [hg]; exact hr, hrepl, by rw [hg]; simpa using hc, hlen1⟩
    | primary404 =>
      have hg : primaryPages trans url params paginate ha st allData nc pc (fuel + 1)
          = (st2, .done allData true) := by
        simp [primaryPages, hpr]
      exact ⟨_, by rw [hg]; exact hr, hrepl, by rw [hg]; simpa using hc, hlen1⟩
    | exhausted =>
      by_cases hbr : paginate = false ∨ truthyCursor nc = false
      · have hg : primaryPages trans url params paginate ha st allData nc pc (fuel + 1)
            = (st2, .done allData false) := by
          simp [primaryPages, hpr, if_pos hbr]
        exact ⟨_, by rw [hg]; exact hr, hrepl, by rw [hg]; simpa using hc, hlen1⟩
      · have hg : primaryPages trans url params paginate ha st allData nc pc (fuel + 1)
            = primaryPages trans url params paginate ha st2 allData nc (pc + 1) fuel := by
          simp [primaryPages, hpr, if_neg hbr]
        obtain ⟨l2, hr2, hu2, hc2, hl2⟩ := ih st2 allData nc (pc + 1)
        refine ⟨List.replicate k (⟨url, mkParams params (if paginate = true ∧ truthyCursor nc = true then nc else none)⟩ : Request) ++ l2, ?_, ?_, ?_, ?_⟩
        · rw [hg, hr2, hr, List.append_assoc]
        · intro rq hm
          rcases List.mem_append.mp hm with h | h

          exacts [hrepl rq h, hu2 rq h]
        · rw [hg, hc2, hc]
          simp only [List.length_append, List.length_replicate]
          omega
        · simp only [List.length_append, List.length_replicate]
          rw [hM] at hk hl2 ⊢
          omega
    | gotPage data nc2 =>
      by_cases hbr : paginate = false ∨
          truthyCursor (if paginate = true then nc2 else nc) = false
      · have hg : primaryPages trans url params paginate ha st allData nc pc (fuel + 1)
            = (st2, .done (allData ++ data) false) := by
          simp [primaryPages, hpr, if_pos hbr]
        exact ⟨_, by rw [hg]; exact hr, hrepl, by rw [hg]; simpa using hc, hlen1⟩
      · have hg : primaryPages trans url params paginate ha st allData nc pc (fuel + 1)
            = primaryPages trans url params paginate ha st2 (allData ++ data)
                (if paginate = true then nc2 else nc) (pc + 1) fuel := by
          simp [primaryPages, hpr, if_neg hbr]
        obtain ⟨l2, hr2, hu2, hc2, hl2⟩ := ih st2 (allData ++ data)
          (if paginate = true then nc2 else nc) (pc + 1)
        refine ⟨List.replicate k (⟨url, mkParams params (if paginate = true ∧ truthyCursor nc = true then nc else none)⟩ : Request) ++ l2, ?_, ?_, ?_, ?_⟩
        · rw [hg, hr2, hr, List.append_assoc]
        · intro rq hm
          rcases List.mem_append.mp hm with h | h

          exacts [hrepl rq h, hu2 rq h]
        · rw [hg, hc2, hc]
          simp only [List.length_append, List.length_replicate]
          omega
        · simp only [List.length_append, List.length_replicate]
          rw [hM] at hk hl2 ⊢
          omega

/-- An alternate/fallback pagination loop appends only requests aimed
at its own URL, at most one per page of fuel, and advances the call
counter by exactly the number of appended requests. -/
theorem altPages_trace (trans : Nat → HttpResult) (url : String)
    (params : Option (List (String × Val))) (paginate : Bool) :
    ∀ (fuel : Nat) (st : FetchSt) (acc : List Val) (nc : Option String) (pc : Nat),
      ∃ l : List Request,
        (altPages trans url params paginate st acc nc pc fuel).1.reqs = st.reqs ++ l ∧
        (∀ r ∈ l, r.url = url) ∧
        (altPages trans url params paginate st acc nc pc fuel).1.callIdx
          = st.callIdx + l.length ∧
        l.length ≤ fuel := by
  intro fuel
  induction fuel with
  | zero =>
    intro st acc nc pc
    exact ⟨[], by simp [altPages], by simp, by simp [altPages], by simp⟩
  | succ fuel ih =>
    intro st acc nc pc
    cases htr : trans st.callIdx with
    | success data nc2 =>
      by_cases hbr : paginate = true ∧ truthyCursor nc2 = true
      · have hg : altPages trans url params paginate st acc nc pc (fuel + 1)
            = altPages trans url params paginate
                (recordCall (altPreSleep st pc) url
                  (mkParams params
                    (if paginate = true ∧ truthyCursor nc = true then nc else none)))
                (acc ++ data) nc2 (pc + 1) fuel := by
          simp [altPages, htr, if_pos hbr]
        obtain ⟨l2, hr2, hu2, hc2, hl2⟩ := ih
          (recordCall (altPreSleep st pc) url
            (mkParams params
              (if paginate = true ∧ truthyCursor nc = true then nc else none)))
          (acc ++ data) nc2 (pc + 1)
        refine ⟨(⟨url, mkParams params (if paginate = true ∧ truthyCursor nc = true then nc else none)⟩ : Request) :: l2, ?_, ?_, ?_, by simpa using Nat.succ_le_succ hl2⟩
        · rw [hg, hr2]
          simp
        · intro rq hm
          rcases List.mem_cons.mp hm with h | h
          · rw [h]
          · exact hu2 rq h
        · rw [hg, hc2]
          simp
          omega
      · have hg : altPages trans url params paginate st acc nc pc (fuel + 1)
            = (recordCall (altPreSleep st pc) url
                (mkParams params
                  (if paginate = true ∧ truthyCursor nc = true then nc else none)),
               .returned (acc ++ data)) := by
          simp [altPages, htr, if_neg hbr]
        refine ⟨[(⟨url, mkParams params (if paginate = true ∧ truthyCursor nc = true then nc else none)⟩ : Request)], ?_, ?_, ?_, by simp⟩
        · rw [hg]; simp
        · intro rq hm
          rw [List.mem_singleton.mp hm]
        · rw [hg]; simp
    | httpError s =>
      have hg : altPages trans url params paginate st acc nc pc (fuel + 1)
          = (recordCall (altPreSleep st pc) url
              (mkParams params
                (if paginate = true ∧ truthyCursor nc = true then nc else none)),
             .failed) := by
        simp [altPages, htr]
      refine ⟨[(⟨url, mkParams params (if paginate = true ∧ truthyCursor nc = true then nc else none)⟩ : Request)], ?_, ?_, ?_, by simp⟩
      · rw [hg]; simp
      · intro rq hm
        rw [List.mem_singleton.mp hm]
      · rw [hg]; simp
    | connFault =>
      have hg : altPages trans url params paginate st acc nc pc (fuel + 1)
          = (recordCall (altPreSleep st pc) url
              (mkParams params
                (if paginate = true ∧ truthyCursor nc = true then nc else none)),
             .failed) := by
        simp [altPages, htr]
      refine ⟨[(⟨url, mkParams params (if paginate = true ∧ truthyCursor nc = true then nc else none)⟩ : Request)], ?_, ?_, ?_, by simp⟩
      · rw [hg]; simp
      · intro rq hm
        rw [List.mem_singleton.mp hm]
      · rw [hg]; simp
    | unexpectedFault =>
      have hg : altPages trans url params paginate st acc nc pc (fuel + 1)
          = (recordCall (altPreSleep st pc) url
              (mkParams params
                (if paginate = true ∧ truthyCursor nc = true then nc else none)),
             .failed) := by
        simp [altPages, htr]
      refine ⟨[(⟨url, mkParams params (if paginate = true ∧ truthyCursor nc = true then nc else none)⟩ : Request)], ?_, ?_, ?_, by simp⟩
      · rw [hg]; simp
      · intro rq hm
        rw [List.mem_singleton.mp hm]
      · rw [hg]; simp

/- === Candidate order: block decomposition of the request trace === -/

/-- A trace consists of contiguous constant blocks whose values follow
the candidate order (candidates may be skipped, but never revisited out
of order). -/
inductive BlockSeq : List String → List String → Prop where
  | nil : BlockSeq [] []
  | skip (u : String) (cands trace : List String) (h : BlockSeq trace cands) :
      BlockSeq trace (u :: cands)
  | block (u : String) (cands trace : List String) (k : Nat) (h : BlockSeq trace cands) :
      BlockSeq (List.replicate (k + 1) u ++ trace) (u :: cands)

theorem blockSeq_nil (c : List String) : BlockSeq [] c := by
  induction c with
  | nil => exact .nil
  | cons u rest ih => exact .skip u rest [] ih

theorem BlockSeq.append {t1 c1 t2 c2 : List String} (h1 : BlockSeq t1 c1)
    (h2 : BlockSeq t2 c2) : BlockSeq (t1 ++ t2) (c1 ++ c2) := by
  induction h1 with
  | nil => simpa using h2
  | skip u cands trace h ih => exact .skip u _ _ ih
  | block u cands trace k h ih =>
    rw [List.append_assoc]
    exact .block u _ _ k ih

theorem blockSeq_replicate (k : Nat) (u : String) :
    BlockSeq (List.replicate k u) [u] := by
  cases k with
  | zero => exact blockSeq_nil [u]
  | succ k =>
    have h := BlockSeq.block u [] [] k .nil
    simpa using h

theorem blockSeq_replicate_cons (n : Nat) (u : String) (c : List String) :
    BlockSeq (List.replicate n u) (u :: c) := by
  have h := (blockSeq_replicate n u).append (blockSeq_nil c)
  simpa using h

/-- Collapse adjacent duplicates: the sequence of distinct consecutive
URLs of a request trace. -/
def dedupAdj : List String → List String
  | [] => []
  | [a] => [a]
  | a :: b :: rest => if a = b then dedupAdj (b :: rest) else a :: dedupAdj (b :: rest)

theorem dedupAdj_cons_self (u : String) (t : List String) :
    dedupAdj (u :: u :: t) = dedupAdj (u :: t) := by
  simp [dedupAdj]

theorem dedupAdj_replicate_append (k : Nat) (u : String) (t : List String) :
    dedupAdj (List.replicate (k + 1) u ++ t) = dedupAdj (u :: t) := by
  induction k with
  | zero => simp [List.replicate]
  | succ k ih =>
    rw [List.replicate_succ, List.cons_append, List.replicate_succ, List.cons_append,
      dedupAdj_cons_self, ← List.cons_append, ← List.replicate_succ]
    exact ih

theorem dedupAdj_cons_sublist (u : String) (t : List String) :
    List.Sublist (dedupAdj (u :: t)) (u :: dedupAdj t) := by
  cases t with
  | nil => simp [dedupAdj]
  | cons v t2 =>
    by_cases h : u = v
    · rw [show dedupAdj (u :: v :: t2) = dedupAdj (v :: t2) from by simp [dedupAdj, h]]
      exact List.sublist_cons_self _ _
    · rw [show dedupAdj (u :: v :: t2) = u :: dedupAdj (v :: t2) from by
        simp [dedupAdj, h]]

theorem blockSeq_dedup {t c : List String} (h : BlockSeq t c) :
    List.Sublist (dedupAdj t) c := by
  induction h with
  | nil => simp [dedupAdj]
  | skip u cands trace h ih => exact ih.cons u
  | block u cands trace k h ih =>
    rw [dedupAdj_replicate_append]
    exact (dedupAdj_cons_sublist u trace).trans (ih.cons₂ u)

/-- The alternate-endpoint walk appends blocks of requests that follow
the configured alternate order, at most maxPages requests per
alternate. -/
theorem tryAlts_trace (trans : Nat → HttpResult) (base : String)
    (params : Option (List (String × Val))) (paginate : Bool) :
    ∀ (alts : List String) (st : FetchSt),
      ∃ l : List Request,
        (tryAlts trans base params paginate st alts).1.reqs = st.reqs ++ l ∧
        BlockSeq (l.map Request.url) (alts.map (fun a => base ++ a)) ∧
        (tryAlts trans base params paginate st alts).1.callIdx
          = st.callIdx + l.length ∧
        l.length ≤ alts.length * maxPages := by
  intro alts
  have hmp : maxPages = 100 := rfl
  induction alts with
  | nil =>
    intro st
    exact ⟨[], by simp [tryAlts], .nil, by simp [tryAlts], by simp⟩
  | cons a rest ih =>
    intro st
    obtain ⟨l1, hr1, hu1, hc1, hl1⟩ :=
      altPages_trace trans (base ++ a) params paginate maxPages st [] none 0
    rcases hap : altPages trans (base ++ a) params paginate st [] none 0 maxPages
      with ⟨st2, o⟩
    rw [hap] at hr1 hc1
    have hl1map : l1.map Request.url = List.replicate l1.length (base ++ a) := by
      have h2 : (l1.map Request.url).length = l1.length := List.length_map _ _
      rw [← h2]
      apply List.eq_replicate_of_mem
      intro b hb
      rw [List.mem_map] at hb
      obtain ⟨rq, hrq, hbe⟩ := hb
      rw [← hbe]
      exact hu1 rq hrq
    cases o with
    | returned d =>
      have hg : tryAlts trans base params paginate st (a :: rest) = (st2, some d) := by
        simp [tryAlts, hap]
      refine ⟨l1, by rw [hg]; exact hr1, ?_, by rw [hg]; simpa using hc1, ?_⟩
      · rw [List.map_cons, hl1map]
        exact blockSeq_replicate_cons _ _ _
      · rw [List.length_cons, Nat.succ_mul]
        rw [hmp] at hl1 ⊢
        omega
    | failed =>
      have hg : tryAlts trans base params paginate st (a :: rest)
          = tryAlts trans base params paginate st2 rest := by
        simp [tryAlts, hap]
      obtain ⟨l2, hr2, hb2, hc2, hl2⟩ := ih st2
      refine ⟨l1 ++ l2, ?_, ?_, ?_, ?_⟩
      · rw [hg, hr2, hr1, List.append_assoc]
      · rw [List.map_append, List.map_cons, hl1map]
        cases hn : l1.length with
        | zero => simpa using BlockSeq.skip (base ++ a) _ _ hb2
        | succ m => exact BlockSeq.block _ _ _ m hb2
      · rw [hg, hc2, hc1, List.length_append]
        omega
      · rw [List.length_append, List.length_cons, Nat.succ_mul]
        rw [hmp] at hl1 hl2 ⊢
        omega

/-- The fallback-base-URL walk appends blocks of requests that follow
the configured fallback order, at most maxPages requests per fallback
base. -/
theorem tryFallbacks_trace (trans : Nat → HttpResult) (endpoint : String)
    (params : Option (List (String × Val))) (paginate : Bool) :
    ∀ (fbs : List String) (st : FetchSt),
      ∃ l : List Request,
        (tryFallbacks trans endpoint params paginate st fbs).1.reqs = st.reqs ++ l ∧
        BlockSeq (l.map Request.url) (fbs.map (fun f => f ++ endpoint)) ∧
        (tryFallbacks trans endpoint params paginate st fbs).1.callIdx
          = st.callIdx + l.length ∧
        l.length ≤ fbs.length * maxPages := by
  intro fbs
  have hmp : maxPages = 100 := rfl
  induction fbs with
  | nil =>
    intro st
    exact ⟨[], by simp [tryFallbacks], .nil, by simp [tryFallbacks], by simp⟩
  | cons f rest ih =>
    intro st
    obtain ⟨l1, hr1, hu1, hc1, hl1⟩ :=
      altPages_trace trans (f ++ endpoint) params paginate maxPages st [] none 0
    rcases hap : altPages trans (f ++ endpoint) params paginate st [] none 0 maxPages
      with ⟨st2, o⟩
    rw [hap] at hr1 hc1
    have hl1map : l1.map Request.url = List.replicate l1.length (f ++ endpoint) := by
      have h2 : (l1.map Request.url).length = l1.length := List.length_map _ _
      rw [← h2]
      apply List.eq_replicate_of_mem
      intro b hb
      rw [List.mem_map] at hb
      obtain ⟨rq, hrq, hbe⟩ := hb
      rw [← hbe]
      exact hu1 rq hrq
    cases o with
    | returned d =>
      have hg : tryFallbacks trans endpoint params paginate st (f :: rest)
          = (st2, some d) := by
        simp [tryFallbacks, hap]
      refine ⟨l1, by rw [hg]; exact hr1, ?_, by rw [hg]; simpa using hc1, ?_⟩
      · rw [List.map_cons, hl1map]
        exact blockSeq_replicate_cons _ _ _
      · rw [List.length_cons, Nat.succ_mul]
        rw [hmp] at hl1 ⊢
        omega
    | failed =>
      have hg : tryFallbacks trans endpoint params paginate st (f :: rest)
          = tryFallbacks trans endpoint params paginate st2 rest := by
        simp [tryFallbacks, hap]
      obtain ⟨l2, hr2, hb2, hc2, hl2⟩ := ih st2
      refine ⟨l1 ++ l2, ?_, ?_, ?_, ?_⟩
      · rw [hg, hr2, hr1, List.append_assoc]
      · rw [List.map_append, List.map_cons, hl1map]
        cases hn : l1.length with
        | zero => simpa using BlockSeq.skip (f ++ endpoint) _ _ hb2
        | succ m => exact BlockSeq.block _ _ _ m hb2
      · rw [hg, hc2, hc1, List.length_append]
        omega
      · rw [List.length_append, List.length_cons, Nat.succ_mul]
        rw [hmp] at hl1 hl2 ⊢
        omega

@[simp] theorem initSt_reqs (cfg : FetchConfig) : (initSt cfg).reqs = [] := rfl

@[simp] theorem initSt_callIdx (cfg : FetchConfig) : (initSt cfg).callIdx = 0 := rfl

/-- Whatever the primary phase produced, the rest of fetch_with_retry
appends request blocks that follow the alternate-then-fallback candidate
order, with a bounded number of calls. -/
theorem afterPrimary_trace (trans : Nat → HttpResult) (cfg : FetchConfig) (st : FetchSt)
    (out : PrimaryOutcome) :
    ∃ l : List Request,
      (afterPrimary trans cfg st out).1.reqs = st.reqs ++ l ∧
      BlockSeq (l.map Request.url)
        (cfg.alt_endpoints.map (fun a => cfg.baseUrl ++ a) ++
          cfg.fallbackUrls.map (fun f => f ++ cfg.endpoint)) ∧
      (afterPrimary trans cfg st out).1.callIdx
        ≤ st.callIdx + (cfg.alt_endpoints.length + cfg.fallbackUrls.length) * maxPages := by
  obtain ⟨ep, prm, alts, pag, rl, base, fbs⟩ := cfg
  cases out with
  | authReturn =>
    exact ⟨[], by simp [afterPrimary], blockSeq_nil _,
      by simp [afterPrimary]⟩
  | unexpectedReturn d =>
    exact ⟨[], by simp [afterPrimary], blockSeq_nil _,
      by simp [afterPrimary]⟩
  | done d pf =>
    cases d with
    | cons x xs =>
      exact ⟨[], by simp [afterPrimary], blockSeq_nil _,
        by simp [afterPrimary]⟩
    | nil =>
      cases pf with
      | false =>
        exact ⟨[], by simp [afterPrimary], blockSeq_nil _,
          by simp [afterPrimary]⟩
      | true =>
        cases alts with
        | nil =>
          cases fbs with
          | nil =>
            exact ⟨[], by simp [afterPrimary], blockSeq_nil _,
              by simp [afterPrimary]⟩
          | cons f fr =>
            obtain ⟨l2, hr2, hb2, hc2, hl2⟩ :=
              tryFallbacks_trace trans ep prm pag (f :: fr) st
            rcases htf : tryFallbacks trans ep prm pag st (f :: fr) with ⟨st3, o3⟩
            rw [htf] at hr2 hc2
            have hbound : st.callIdx + l2.length
                ≤ st.callIdx + (List.length ([] : List String) + (f :: fr).length)
                  * maxPages := by
              refine Nat.add_le_add_left (le_trans hl2 ?_) _
              simp
            cases o3 with
            | some d3 =>
              have hg : afterPrimary trans ⟨ep, prm, [], pag, rl, base, f :: fr⟩ st
                  (.done [] true) = (st3, d3) := by
                simp [afterPrimary, htf]
              refine ⟨l2, by rw [hg]; exact hr2, ?_, ?_⟩
              · simpa using hb2
              · rw [hg]
                rw [show (st3, d3).1.callIdx = st.callIdx + l2.length from hc2]
                simpa using hbound
            | none =>
              have hg : afterPrimary trans ⟨ep, prm, [], pag, rl, base, f :: fr⟩ st
                  (.done [] true) = (st3, []) := by
                simp [afterPrimary, htf]
              refine ⟨l2, by rw [hg]; exact hr2, ?_, ?_⟩
              · simpa using hb2
              · rw [hg]
                rw [show (st3, ([] : List Val)).1.callIdx = st.callIdx + l2.length from hc2]
                simpa using hbound
        | cons a al =>
          obtain ⟨l1, hr1, hb1, hc1, hl1⟩ := tryAlts_trace trans base prm pag (a :: al) st
          rcases hta : tryAlts trans base prm pag st (a :: al) with ⟨st2, o⟩
          rw [hta] at hr1 hc1
          cases o with
          | some d2 =>
            have hg : afterPrimary trans ⟨ep, prm, a :: al, pag, rl, base, fbs⟩ st
                (.done [] true) = (st2, d2) := by
              simp [afterPrimary, hta]
            refine ⟨l1, by rw [hg]; exact hr1, ?_, ?_⟩
            · have h := hb1.append (blockSeq_nil (fbs.map (fun f => f ++ ep)))
              simpa using h
            · rw [hg]
              rw [show (st2, d2).1.callIdx = st.callIdx + l1.length from hc1]
              refine Nat.add_le_add_left (le_trans hl1 ?_) _
              exact Nat.mul_le_mul_right _ (Nat.le_add_right _ _)
          | none =>
            cases fbs with
            | nil =>
              have hg : afterPrimary trans ⟨ep, prm, a :: al, pag, rl, base, []⟩ st
                  (.done [] true) = (st2, []) := by
                simp [afterPrimary, hta]
              refine ⟨l1, by rw [hg]; exact hr1, ?_, ?_⟩
              · have h := hb1.append (blockSeq_nil ([] : List String))
                simpa using h
              · rw [hg]
                rw [show (st2, ([] : List Val)).1.callIdx = st.callIdx + l1.length from hc1]
                refine Nat.add_le_add_left (le_trans hl1 ?_) _
                exact Nat.mul_le_mul_right _ (Nat.le_add_right _ _)
            | cons f fr =>
              obtain ⟨l2, hr2, hb2, hc2, hl2⟩ :=
                tryFallbacks_trace trans ep prm pag (f :: fr) st2
              rcases htf : tryFallbacks trans ep prm pag st2 (f :: fr) with ⟨st3, o3⟩
              rw [htf] at hr2 hc2
              have harith : l1.length + l2.length
                  ≤ ((a :: al).length + (f :: fr).length) * maxPages := by
                rw [Nat.add_mul]
                exact Nat.add_le_add hl1 hl2
              cases o3 with
              | some d3 =>
                have hg : afterPrimary trans ⟨ep, prm, a :: al, pag, rl, base, f :: fr⟩ st
                    (.done [] true) = (st3, d3) := by
                  simp [afterPrimary, hta, htf]
                refine ⟨l1 ++ l2, ?_, ?_, ?_⟩
                · rw [hg]
                  rw [show (st3, d3).1.reqs = st2.reqs ++ l2 from hr2, hr1,
                    List.append_assoc]
                · rw [List.map_append]
                  exact hb1.append hb2
                · rw [hg]
                  rw [show (st3, d3).1.callIdx = st2.callIdx + l2.length from hc2, hc1,
                    Nat.add_assoc]
                  exact Nat.add_le_add_left harith _
              | none =>
                have hg : afterPrimary trans ⟨ep, prm, a :: al, pag, rl, base, f :: fr⟩ st
                    (.done [] true) = (st3, []) := by
                  simp [afterPrimary, hta, htf]
                refine ⟨l1 ++ l2, ?_, ?_, ?_⟩
                · rw [hg]
                  rw [show (st3, ([] : List Val)).1.reqs = st2.reqs ++ l2 from hr2, hr1,
                    List.append_assoc]
                · rw [List.map_append]
                  exact hb1.append hb2
                · rw [hg]
                  rw [show (st3, ([] : List Val)).1.callIdx = st2.callIdx + l2.length
                      from hc2, hc1, Nat.add_assoc]
                  exact Nat.add_le_add_left harith _

/-- C6: candidate endpoints are requested in exactly the resolver
order: primary path on the primary base URL, then each alternate path on
the primary base in configured order, then the primary path on each
fallback base in configured order.  Formally, the sequence of distinct
consecutive request URLs of any fetch is an order-preserving sublist of
candidateUrls; and when the operator pins an explicit base URL the
fallback list is empty, so no fallback candidate exists at all. -/
theorem c6_candidate_order (trans : Nat → HttpResult) (cfg : FetchConfig) :
    List.Sublist (dedupAdj (((fetch_with_retry trans cfg).1.reqs).map Request.url))
      (candidateUrls cfg) ∧
    (∀ b region ver, fallbackUrlsFor (some b) region ver = []) := by
  constructor
  · obtain ⟨l0, hr0, hu0, hc0, hl0⟩ := primaryPages_trace trans
      (cfg.baseUrl ++ cfg.endpoint) cfg.params cfg.paginate (!cfg.alt_endpoints.isEmpty)
      maxPages (initSt cfg) [] none 0
    rcases hpp : primaryPhase trans cfg with ⟨st, out⟩
    have hpp2 : primaryPages trans (cfg.baseUrl ++ cfg.endpoint) cfg.params cfg.paginate
        (!cfg.alt_endpoints.isEmpty) (initSt cfg) [] none 0 maxPages = (st, out) := hpp
    rw [hpp2] at hr0 hc0
    obtain ⟨l1, hr1, hb1, hc1⟩ := afterPrimary_trace trans cfg st out
    rw [fetch_eq_afterPrimary trans cfg st out hpp, hr1,
      show st.reqs = (initSt cfg).reqs ++ l0 from hr0]
    have hl0map : l0.map Request.url
        = List.replicate l0.length (cfg.baseUrl ++ cfg.endpoint) := by
      have h2 : (l0.map Request.url).length = l0.length := List.length_map _ _
      rw [← h2]
      apply List.eq_replicate_of_mem
      intro b hb
      rw [List.mem_map] at hb
      obtain ⟨rq, hrq, hbe⟩ := hb
      rw [← hbe]
      exact hu0 rq hrq
    have hblock : BlockSeq ((l0 ++ l1).map Request.url) (candidateUrls cfg) := by
      rw [List.map_append, hl0map]
      unfold candidateUrls
      cases hn : l0.length with
      | zero => simpa using BlockSeq.skip (cfg.baseUrl ++ cfg.endpoint) _ _ hb1
      | succ m => exact BlockSeq.block _ _ _ m hb1
    have hsub := blockSeq_dedup hblock
    simpa [List.append_assoc] using hsub
  · intro b region ver
    rfl

/-- One successful page step of the primary pagination loop with a
cursor that licenses another page. -/
theorem primaryPages_step_got (trans : Nat → HttpResult) (url : String)
    (params : Option (List (String × Val))) (paginate ha : Bool) (st : FetchSt)
    (allData : List Val) (nc : Option String) (pc fuel : Nat) (st2 : FetchSt)
    (d : List Val) (nc2 : Option String)
    (h : primaryRetry trans url
        (mkParams params (if paginate = true ∧ truthyCursor nc = true then nc else none))
        (pc + 1) ha st 0 MAX_RETRIES = (st2, .gotPage d nc2))
    (hcont : ¬(paginate = false ∨
        truthyCursor (if paginate = true then nc2 else nc) = false)) :
    primaryPages trans url params paginate ha st allData nc pc (fuel + 1)
      = primaryPages trans url params paginate ha st2 (allData ++ d)
          (if paginate = true then nc2 else nc) (pc + 1) fuel := by
  simp [primaryPages, h, if_neg hcont]

/-- Every page of a constant always-succeeding paginating transport with
a truthy cursor consumes one call, until the fuel (the remaining page
budget) runs out at the page ceiling, where the accumulated records are
returned with the truncation warning. -/
theorem primaryPages_truncate (trans : Nat → HttpResult) (url : String)
    (params : Option (List (String × Val))) (ha : Bool) (ds : List Val) (c : String)
    (htrans : ∀ i, trans i = .success ds (some c)) (hc : truthyCursor (some c) = true) :
    ∀ (fuel : Nat) (st : FetchSt) (acc : List Val) (pc : Nat),
      ∃ st2, primaryPages trans url params true ha st acc (some c) pc fuel
          = (st2, .done (acc ++ (List.replicate fuel ds).flatten) false) ∧
        st2.callIdx = st.callIdx + fuel ∧ st2.truncWarn = true := by
  intro fuel
  induction fuel with
  | zero =>
    intro st acc pc
    exact ⟨{ st with truncWarn := true }, by simp [primaryPages], by simp, rfl⟩
  | succ fuel ih =>
    intro st acc pc
    have h0 := htrans st.callIdx
    have hretry : primaryRetry trans url (mkParams params (some c)) (pc + 1) ha st 0
        MAX_RETRIES
        = (recordCall (preSleep st 0 (pc + 1)) url (mkParams params (some c)),
           .gotPage ds (some c)) := by
      rw [show MAX_RETRIES = 2 + 1 from rfl]
      simp [primaryRetry, h0]
    obtain ⟨st3, hdone, hcall, htrunc⟩ := ih
      (recordCall (preSleep st 0 (pc + 1)) url (mkParams params (some c)))
      (acc ++ ds) (pc + 1)
    refine ⟨st3, ?_, ?_, htrunc⟩
    · have hif : (if true = true ∧ truthyCursor (some c) = true then some c else none)
          = some c := by simp [hc]
      have h2 : primaryRetry trans url
          (mkParams params
            (if true = true ∧ truthyCursor (some c) = true then some c else none))
          (pc + 1) ha st 0 MAX_RETRIES
          = (recordCall (preSleep st 0 (pc + 1)) url (mkParams params (some c)),
             .gotPage ds (some c)) := by
        rw [hif]
        exact hretry
      have hg := primaryPages_step_got trans url params true ha st acc (some c) pc fuel
        _ ds (some c) h2 (by simp [hc])
      rw [show (if true = true then some c else some c) = some c from rfl] at hg
      rw [hg, hdone, List.replicate_succ, List.flatten_cons, List.append_assoc]
    · rw [hcall]
      simp
      omega

/-- C4: retrieval against one candidate never exceeds the 100-page
safety ceiling: with a transport that always succeeds and always hands
back a (nonempty) cursor, the fetch stops after exactly 100 pages (one
call per page), returns the records accumulated over those pages, and
flags the truncation warning.  More generally every fetch issues a
bounded number of calls: at most MAX_RETRIES calls per page of the
primary candidate and at most maxPages calls per alternate or fallback
candidate, so every retry loop and every pagination loop terminates. -/
theorem c4_page_ceiling_and_termination :
    (∀ (trans : Nat → HttpResult) (cfg : FetchConfig) (ds : List Val) (c : String),
      (∀ i, trans i = .success ds (some c)) → cfg.paginate = true → c ≠ "" →
      ∃ st, fetch_with_retry trans cfg = (st, (List.replicate maxPages ds).flatten) ∧
        st.callIdx = maxPages ∧ st.truncWarn = true) ∧
    (∀ (trans : Nat → HttpResult) (cfg : FetchConfig),
      (fetch_with_retry trans cfg).1.callIdx ≤ MAX_RETRIES * maxPages +
        (cfg.alt_endpoints.length + cfg.fallbackUrls.length) * maxPages) := by
  constructor
  · intro trans cfg ds c htrans hpag hcne
    have hemp : c.isEmpty = false := by
      cases h : c.isEmpty with
      | false => rfl
      | true => exact absurd ((String.isEmpty_iff c).mp h) hcne
    have hc : truthyCursor (some c) = true := by
      simp [truthyCursor, hemp]
    have h0 := htrans 0
    have hretry : primaryRetry trans (cfg.baseUrl ++ cfg.endpoint)
        (mkParams cfg.params none) 1 (!cfg.alt_endpoints.isEmpty) (initSt cfg) 0
        MAX_RETRIES
        = (recordCall (preSleep (initSt cfg) 0 1) (cfg.baseUrl ++ cfg.endpoint)
            (mkParams cfg.params none), .gotPage ds (some c)) := by
      rw [show MAX_RETRIES = 2 + 1 from rfl]
      simp [primaryRetry, h0]
    obtain ⟨st2, hdone, hcall, htrunc⟩ := primaryPages_truncate trans
      (cfg.baseUrl ++ cfg.endpoint) cfg.params (!cfg.alt_endpoints.isEmpty) ds c htrans hc
      99
      (recordCall (preSleep (initSt cfg) 0 1) (cfg.baseUrl ++ cfg.endpoint)
        (mkParams cfg.params none))
      ds 1
    have hphase : primaryPhase trans cfg
        = (st2, .done (ds ++ (List.replicate 99 ds).flatten) false) := by
      unfold primaryPhase
      rw [hpag, show maxPages = 99 + 1 from rfl]
      have hg := primaryPages_step_got trans (cfg.baseUrl ++ cfg.endpoint) cfg.params
        true (!cfg.alt_endpoints.isEmpty) (initSt cfg) [] none 0 99
        _ ds (some c) hretry (by simp [hc])
      rw [show (if true = true then some c else (none : Option String)) = some c
        from rfl] at hg
      rw [hg]
      rw [show ([] : List Val) ++ ds = ds from rfl]
      rw [hdone]
    have hflat : (List.replicate maxPages ds).flatten
        = ds ++ (List.replicate 99 ds).flatten := by
      rw [show maxPages = 99 + 1 from rfl, List.replicate_succ, List.flatten_cons]
    refine ⟨st2, ?_, ?_, htrunc⟩
    · rw [fetch_eq_afterPrimary trans cfg st2 _ hphase, afterPrimary_done_false, hflat]
    · rw [hcall]
      simp only [recordCall_callIdx, preSleep_callIdx, initSt_callIdx]
      rfl
  · intro trans cfg
    obtain ⟨l0, hr0, hu0, hc0, hl0⟩ := primaryPages_trace trans
      (cfg.baseUrl ++ cfg.endpoint) cfg.params cfg.paginate (!cfg.alt_endpoints.isEmpty)
      maxPages (initSt cfg) [] none 0
    rcases hpp : primaryPhase trans cfg with ⟨st, out⟩
    have hpp2 : primaryPages trans (cfg.baseUrl ++ cfg.endpoint) cfg.params cfg.paginate
        (!cfg.alt_endpoints.isEmpty) (initSt cfg) [] none 0 maxPages = (st, out) := hpp
    rw [hpp2] at hc0
    obtain ⟨l1, hr1, hb1, hc1⟩ := afterPrimary_trace trans cfg st out
    rw [fetch_eq_afterPrimary trans cfg st out hpp]
    refine le_trans hc1 ?_
    have hst : st.callIdx = l0.length := by simpa using hc0
    rw [hst]
    exact Nat.add_le_add_right hl0 _

/-- Configuration and transport of the page-ceiling witness. -/
def cfgC4 : FetchConfig :=
  ⟨"/sites", some [("limit", .num 100)], [], true, none,
    "https://h.net/web/api/v2.1", []⟩

def transC4 : Nat → HttpResult := fun _ => .success [.num 5] (some "k")

/-- Witness for C4: the infinite-cursor stub stops at exactly 100
pages. -/
theorem c4_witness :
    ∃ st, fetch_with_retry transC4 cfgC4
        = (st, (List.replicate maxPages [Val.num 5]).flatten) ∧
      st.callIdx = maxPages ∧ st.truncWarn = true :=
  c4_page_ceiling_and_termination.1 transC4 cfgC4 [.num 5] "k" (fun _ => rfl) rfl
    (by decide)

/-- The first request of an alternate/fallback candidate walk goes to
that candidate with the plain (cursor-free) parameters. -/
theorem altPages_starts_fuel (trans : Nat → HttpResult) (url : String)
    (params : Option (List (String × Val))) (paginate : Bool) (st : FetchSt)
    (fuel : Nat) :
    ∃ l : List Request,
      (altPages trans url params paginate st [] none 0 (fuel + 1)).1.reqs
        = st.reqs ++ ⟨url, mkParams params none⟩ :: l := by
  cases htr : trans st.callIdx with
  | success data nc2 =>
    by_cases hbr : paginate = true ∧ truthyCursor nc2 = true
    · obtain ⟨hpag, htc⟩ := hbr
      have hg : altPages trans url params paginate st [] none 0 (fuel + 1)
          = altPages trans url params paginate
              (recordCall (altPreSleep st 0) url (mkParams params none))
              ([] ++ data) nc2 (0 + 1) fuel := by
        simp [altPages, htr, hpag, htc]
      obtain ⟨l2, hr2, _, _, _⟩ := altPages_trace trans url params paginate fuel
        (recordCall (altPreSleep st 0) url (mkParams params none)) ([] ++ data) nc2 (0 + 1)
      refine ⟨l2, ?_⟩
      rw [hg, hr2]
      simp
    · refine ⟨[], ?_⟩
      have hg : altPages trans url params paginate st [] none 0 (fuel + 1)
          = (recordCall (altPreSleep st 0) url (mkParams params none),
             .returned ([] ++ data)) := by
        simp [altPages, htr, if_neg hbr]
      rw [hg]
      simp
  | httpError s =>
    refine ⟨[], ?_⟩
    have hg : altPages trans url params paginate st [] none 0 (fuel + 1)
        = (recordCall (altPreSleep st 0) url (mkParams params none), .failed) := by
      simp [altPages, htr]
    rw [hg]
    simp
  | connFault =>
    refine ⟨[], ?_⟩
    have hg : altPages trans url params paginate st [] none 0 (fuel + 1)
        = (recordCall (altPreSleep st 0) url (mkParams params none), .failed) := by
      simp [altPages, htr]
    rw [hg]
    simp
  | unexpectedFault =>
    refine ⟨[], ?_⟩
    have hg : altPages trans url params paginate st [] none 0 (fuel + 1)
        = (recordCall (altPreSleep st 0) url (mkParams params none), .failed) := by
      simp [altPages, htr]
    rw [hg]
    simp

/-- The first request of an alternate/fallback candidate walk goes to
that candidate with the plain (cursor-free) parameters. -/
theorem altPages_starts (trans : Nat → HttpResult) (url : String)
    (params : Option (List (String × Val))) (paginate : Bool) (st : FetchSt) :
    ∃ l : List Request,
      (altPages trans url params paginate st [] none 0 maxPages).1.reqs
        = st.reqs ++ ⟨url, mkParams params none⟩ :: l := by
  rw [show maxPages = 99 + 1 from rfl]
  exact altPages_starts_fuel trans url params paginate st 99

/-- C2 amended: a candidate failure advances to the next candidate only
in these cases: the primary candidate advances to the alternates (and
then the fallback bases) exactly when it failed with 404 on the final
retry attempt of page 1 (the primary_failed flag); an alternate or
fallback candidate failing in any way advances to the next one.  A
primary candidate that fails without that flag — in particular a
generic retry-exhausted failure on timeouts, connection faults or 5xx —
returns the empty sequence immediately even when alternates remain
untried. -/
theorem c2_amended (trans : Nat → HttpResult) (cfg : FetchConfig) (st st2 : FetchSt)
    (base : String) (params : Option (List (String × Val))) (pag : Bool)
    (a : String) (rest : List String) :
    (primaryPhase trans cfg = (st, .done [] true) → cfg.alt_endpoints = a :: rest →
      ∃ t : List Request, (fetch_with_retry trans cfg).1.reqs
        = st.reqs ++ ⟨cfg.baseUrl ++ a, mkParams cfg.params none⟩ :: t) ∧
    (primaryPhase trans cfg = (st, .done [] false) →
      fetch_with_retry trans cfg = (st, [])) ∧
    (altPages trans (base ++ a) params pag st [] none 0 maxPages = (st2, .failed) →
      tryAlts trans base params pag st (a :: rest)
        = tryAlts trans base params pag st2 rest) := by
  refine ⟨?_, ?_, ?_⟩
  · intro hp halt
    rw [fetch_eq_afterPrimary trans cfg st _ hp]
    obtain ⟨ep, prm, alts, pagc, rl, bs, fbs⟩ := cfg
    simp only at halt
    subst halt
    obtain ⟨l1, hfirst⟩ := altPages_starts trans (bs ++ a) prm pagc st
    rcases hap : altPages trans (bs ++ a) prm pagc st [] none 0 maxPages with ⟨stA, o⟩
    rw [hap] at hfirst
    cases o with
    | returned d =>
      have hg : afterPrimary trans ⟨ep, prm, a :: rest, pagc, rl, bs, fbs⟩ st
          (.done [] true) = (stA, d) := by
        simp [afterPrimary, tryAlts, hap]
      exact ⟨l1, by rw [hg]; exact hfirst⟩
    | failed =>
      have hgal : tryAlts trans bs prm pagc st (a :: rest)
          = tryAlts trans bs prm pagc stA rest := by
        simp [tryAlts, hap]
      obtain ⟨l2, hr2, _, _, _⟩ := tryAlts_trace trans bs prm pagc rest stA
      rcases hta : tryAlts trans bs prm pagc stA rest with ⟨stB, oB⟩
      rw [hta] at hr2
      cases oB with
      | some d2 =>
        have hg : afterPrimary trans ⟨ep, prm, a :: rest, pagc, rl, bs, fbs⟩ st
            (.done [] true) = (stB, d2) := by
          simp [afterPrimary, hgal, hta]
        refine ⟨l1 ++ l2, ?_⟩
        rw [hg]
        rw [show (stB, d2).1.reqs = stA.reqs ++ l2 from hr2, hfirst]
        simp
      | none =>
        cases fbs with
        | nil =>
          have hg : afterPrimary trans ⟨ep, prm, a :: rest, pagc, rl, bs, []⟩ st
              (.done [] true) = (stB, []) := by
            simp [afterPrimary, hgal, hta]
          refine ⟨l1 ++ l2, ?_⟩
          rw [hg]
          rw [show (stB, ([] : List Val)).1.reqs = stA.reqs ++ l2 from hr2, hfirst]
          simp
        | cons f fr =>
          obtain ⟨l3, hr3, _, _, _⟩ := tryFallbacks_trace trans ep prm pagc (f :: fr) stB
          rcases htf : tryFallbacks trans ep prm pagc stB (f :: fr) with ⟨stC, oC⟩
          rw [htf] at hr3
          cases oC with
          | some d3 =>
            have hg : afterPrimary trans ⟨ep, prm, a :: rest, pagc, rl, bs, f :: fr⟩ st
                (.done [] true) = (stC, d3) := by
              simp [afterPrimary, hgal, hta, htf]
            refine ⟨l1 ++ l2 ++ l3, ?_⟩
            rw [hg]
            rw [show (stC, d3).1.reqs = stB.reqs ++ l3 from hr3,
              show stB.reqs = stA.reqs ++ l2 from hr2, hfirst]
            simp
          | none =>
            have hg : afterPrimary trans ⟨ep, prm, a :: rest, pagc, rl, bs, f :: fr⟩ st
                (.done [] true) = (stC, []) := by
              simp [afterPrimary, hgal, hta, htf]
            refine ⟨l1 ++ l2 ++ l3, ?_⟩
            rw [hg]
            rw [show (stC, ([] : List Val)).1.reqs = stB.reqs ++ l3 from hr3,
              show stB.reqs = stA.reqs ++ l2 from hr2, hfirst]
            simp
  · intro hp
    rw [fetch_eq_afterPrimary trans cfg st _ hp, afterPrimary_done_false]
  · intro hap
    simp [tryAlts, hap]

/-- Witness for the amended C2: in the C1 scenario the primary fails
with the 404 flag and the very next request goes to the first
alternate. -/
theorem c2_amended_witness :
    ∃ t : List Request, (fetch_with_retry transC1 cfgC1).1.reqs
      = (primaryPhase transC1 cfgC1).1.reqs ++
          ⟨cfgC1.baseUrl ++ "/ruleAlt1", mkParams cfgC1.params none⟩ :: t :=
  (c2_amended transC1 cfgC1 (primaryPhase transC1 cfgC1).1 (initSt cfgC1) "" none false
    "/ruleAlt1" ["/ruleAlt2"]).1 rfl rfl

/-- A transient transport fault in the sense of C5: a connection fault
or timeout, or a generic HTTP error status (not 401/403/404/429). -/
def IsTransientFault (r : HttpResult) : Prop :=
  r = .connFault ∨
    ∃ s, r = .httpError s ∧ s ≠ 401 ∧ s ≠ 403 ∧ s ≠ 404 ∧ s ≠ 429

/-- Project the retry-backoff sleeps out of the sleep ledger. -/
def backoffSecs : SleepEvent → Option Nat
  | .backoff n => some n
  | .rate _ => none

/-- A transient fault makes the retry loop take exactly the
backoff-and-retry step. -/
theorem primaryRetry_transient_step (trans : Nat → HttpResult) (url : String)
    (ps : List (String × Val)) (pc : Nat) (ha : Bool) (st : FetchSt) (a fuel : Nat)
    (ht : IsTransientFault (trans st.callIdx)) :
    primaryRetry trans url ps pc ha st a (fuel + 1)
      = (if a + 1 < MAX_RETRIES then
          primaryRetry trans url ps pc ha
            (recordSleep (recordCall (preSleep st a pc) url ps)
              (.backoff (RETRY_DELAY * 2 ^ a))) (a + 1) fuel
         else (recordCall (preSleep st a pc) url ps, .exhausted)) := by
  rcases ht with h | ⟨s, hs, h1, h3, h4, h9⟩
  · simp [primaryRetry, h]
  · have e1 : (s == 401) = false := beq_eq_false_iff_ne.mpr h1
    have e3 : (s == 403) = false := beq_eq_false_iff_ne.mpr h3
    have e4 : (s == 404) = false := beq_eq_false_iff_ne.mpr h4
    have e9 : (s == 429) = false := beq_eq_false_iff_ne.mpr h9
    simp [primaryRetry, hs, e1, e3, e4, e9]

/-- C5: against transport behaviour that persistently produces
transient faults, the fetch issues exactly MAX_RETRIES = 3 request
attempts, all at the primary candidate, gives up with an empty result,
and the backoff sleeps inserted before the retry attempts are exactly
RETRY_DELAY×2^0 = 2s and RETRY_DELAY×2^1 = 4s. -/
theorem c5_retry_ceiling_backoff (trans : Nat → HttpResult) (cfg : FetchConfig)
    (h : ∀ i, i < MAX_RETRIES → IsTransientFault (trans i)) :
    (fetch_with_retry trans cfg).2 = [] ∧
    (fetch_with_retry trans cfg).1.callIdx = MAX_RETRIES ∧
    (fetch_with_retry trans cfg).1.reqs.map Request.url
      = List.replicate MAX_RETRIES (cfg.baseUrl ++ cfg.endpoint) ∧
    (fetch_with_retry trans cfg).1.sleeps.filterMap backoffSecs
      = [RETRY_DELAY * 2 ^ 0, RETRY_DELAY * 2 ^ 1] := by
  have hr : primaryRetry trans (cfg.baseUrl ++ cfg.endpoint)
      (mkParams cfg.params none) 1 (!cfg.alt_endpoints.isEmpty) (initSt cfg) 0
      MAX_RETRIES
      = (recordCall (preSleep (recordSleep (recordCall (preSleep (recordSleep
          (recordCall (preSleep (initSt cfg) 0 1) (cfg.baseUrl ++ cfg.endpoint)
            (mkParams cfg.params none))
          (.backoff (RETRY_DELAY * 2 ^ 0))) 1 1) (cfg.baseUrl ++ cfg.endpoint)
            (mkParams cfg.params none))
          (.backoff (RETRY_DELAY * 2 ^ 1))) 2 1) (cfg.baseUrl ++ cfg.endpoint)
            (mkParams cfg.params none),
        .exhausted) := by
    rw [show MAX_RETRIES = 2 + 1 from rfl]
    rw [primaryRetry_transient_step trans (cfg.baseUrl ++ cfg.endpoint)
      (mkParams cfg.params none) 1 (!cfg.alt_endpoints.isEmpty) (initSt cfg) 0 2
      (h 0 (by decide))]
    rw [if_pos (by decide : 0 + 1 < MAX_RETRIES)]
    rw [show (2 : Nat) = 1 + 1 from rfl]
    rw [primaryRetry_transient_step trans (cfg.baseUrl ++ cfg.endpoint)
      (mkParams cfg.params none) 1 (!cfg.alt_endpoints.isEmpty) _ (0 + 1) 1
      (h 1 (by decide))]
    rw [if_pos (by decide : 0 + 1 + 1 < MAX_RETRIES)]
    rw [show (1 : Nat) = 0 + 1 from rfl]
    rw [primaryRetry_transient_step trans (cfg.baseUrl ++ cfg.endpoint)
      (mkParams cfg.params none) 1 (!cfg.alt_endpoints.isEmpty) _ (0 + 1 + 1) 0
      (h 2 (by decide))]
    rw [if_neg (by decide : ¬(0 + 1 + 1 + 1 < MAX_RETRIES))]
  have hphase : primaryPhase trans cfg
      = ((primaryRetry trans (cfg.baseUrl ++ cfg.endpoint)
          (mkParams cfg.params none) 1 (!cfg.alt_endpoints.isEmpty) (initSt cfg) 0
          MAX_RETRIES).1, .done [] false) := by
    unfold primaryPhase
    rw [show maxPages = 99 + 1 from rfl]
    rw [hr]
    simp [primaryPages, hr, truthyCursor]
  have hfetch : fetch_with_retry trans cfg
      = ((primaryRetry trans (cfg.baseUrl ++ cfg.endpoint)
          (mkParams cfg.params none) 1 (!cfg.alt_endpoints.isEmpty) (initSt cfg) 0
          MAX_RETRIES).1, []) := by
    rw [fetch_eq_afterPrimary trans cfg _ _ hphase, afterPrimary_done_false]
  rw [hfetch, hr]
  refine ⟨rfl, ?_, ?_, ?_⟩
  · simp
    rfl
  · simp [recordSleep, recordCall, preSleep, initSt, List.replicate]
  · simp [recordSleep, recordCall, preSleep, initSt, backoffSecs]

/-- Witness for C5 with an always-timing-out transport. -/
theorem c5_witness :
    (fetch_with_retry transC2 cfgC2).2 = [] ∧
    (fetch_with_retry transC2 cfgC2).1.callIdx = MAX_RETRIES ∧
    (fetch_with_retry transC2 cfgC2).1.reqs.map Request.url
      = List.replicate MAX_RETRIES (cfgC2.baseUrl ++ cfgC2.endpoint) ∧
    (fetch_with_retry transC2 cfgC2).1.sleeps.filterMap backoffSecs
      = [RETRY_DELAY * 2 ^ 0, RETRY_DELAY * 2 ^ 1] :=
  c5_retry_ceiling_backoff transC2 cfgC2 (fun _ _ => Or.inl rfl)

/-- A 401 or 403 answer makes the retry loop stop at once with the
authFail outcome. -/
theorem primaryRetry_auth_term (trans : Nat → HttpResult) (url : String)
    (ps : List (String × Val)) (pc : Nat) (ha : Bool) (st : FetchSt) (a fuel : Nat)
    (s : Nat) (htr : trans st.callIdx = .httpError s) (hs : s = 401 ∨ s = 403) :
    primaryRetry trans url ps pc ha st a (fuel + 1)
      = (recordCall (preSleep st a pc) url ps, .authFail) := by
  rcases hs with h | h <;> subst h <;> simp [primaryRetry, htr]

/-- A 429 answer doubles the sleep time and takes the backoff-and-retry
step. -/
theorem primaryRetry_429_step (trans : Nat → HttpResult) (url : String)
    (ps : List (String × Val)) (pc : Nat) (ha : Bool) (st : FetchSt) (a fuel : Nat)
    (htr : trans st.callIdx = .httpError 429) :
    primaryRetry trans url ps pc ha st a (fuel + 1)
      = (if a + 1 < MAX_RETRIES then
          primaryRetry trans url ps pc ha
            (recordSleep { recordCall (preSleep st a pc) url ps with
                sleepTime := (recordCall (preSleep st a pc) url ps).sleepTime.double }
              (.backoff (RETRY_DELAY * 2 ^ a))) (a + 1) fuel
         else ({ recordCall (preSleep st a pc) url ps with
             sleepTime := (recordCall (preSleep st a pc) url ps).sleepTime.double },
           .exhausted)) := by
  simp [primaryRetry, htr]

/-- A 404 on the final retry attempt of page 1 with alternates
configured stops the retry loop with the primary404 outcome. -/
theorem primaryRetry_404_term (trans : Nat → HttpResult) (url : String)
    (ps : List (String × Val)) (pc : Nat) (ha : Bool) (st : FetchSt) (a fuel : Nat)
    (htr : trans st.callIdx = .httpError 404) (hha : ha = true)
    (hatt : a = MAX_RETRIES - 1) (hpc : pc = 1) :
    primaryRetry trans url ps pc ha st a (fuel + 1)
      = (recordCall (preSleep st a pc) url ps, .primary404) := by
  subst hha hatt hpc
  simp [primaryRetry, htr]

/-- A non-auth, non-429 HTTP error that does not meet the 404 special
condition takes the plain backoff-and-retry step. -/
theorem primaryRetry_http_step (trans : Nat → HttpResult) (url : String)
    (ps : List (String × Val)) (pc : Nat) (ha : Bool) (st : FetchSt) (a fuel : Nat)
    (s : Nat) (htr : trans st.callIdx = .httpError s)
    (hs1 : s ≠ 401) (hs3 : s ≠ 403) (hs9 : s ≠ 429)
    (h404 : ¬(s = 404 ∧ ha = true ∧ a = MAX_RETRIES - 1 ∧ pc = 1)) :
    primaryRetry trans url ps pc ha st a (fuel + 1)
      = (if a + 1 < MAX_RETRIES then
          primaryRetry trans url ps pc ha
            (recordSleep (recordCall (preSleep st a pc) url ps)
              (.backoff (RETRY_DELAY * 2 ^ a))) (a + 1) fuel
         else (recordCall (preSleep st a pc) url ps, .exhausted)) := by
  have e1 : (s == 401) = false := beq_eq_false_iff_ne.mpr hs1
  have e3 : (s == 403) = false := beq_eq_false_iff_ne.mpr hs3
  have e9 : (s == 429) = false := beq_eq_false_iff_ne.mpr hs9
  have e4 : (s == 404 && ha && a == MAX_RETRIES - 1 && pc == 1) = false := by
    by_cases h4 : s = 404
    · subst h4
      by_cases hh : ha = true
      · by_cases hatt : a = MAX_RETRIES - 1
        · by_cases hp : pc = 1
          · exact absurd ⟨rfl, hh, hatt, hp⟩ h404
          · simp [hh, hatt, beq_eq_false_iff_ne.mpr hp]
        · simp [hh, beq_eq_false_iff_ne.mpr hatt]
      · simp [Bool.eq_false_iff.mpr hh]
    · simp [beq_eq_false_iff_ne.mpr h4]
  simp [primaryRetry, htr, e1, e3, e9, e4]

/-- If a 401/403 answer arrives at any call issued by the retry loop,
the loop stops at exactly that call with the authFail outcome: no later
call of the loop is issued. -/
theorem primaryRetry_auth_inv (trans : Nat → HttpResult) (url : String)
    (ps : List (String × Val)) (pc : Nat) (ha : Bool) :
    ∀ (fuel : Nat) (st : FetchSt) (a j : Nat), st.callIdx ≤ j →
      j < (primaryRetry trans url ps pc ha st a fuel).1.callIdx →
      isAuthRes (trans j) = true →
      (primaryRetry trans url ps pc ha st a fuel).2 = .authFail ∧
        (primaryRetry trans url ps pc ha st a fuel).1.callIdx = j + 1 := by
  intro fuel
  induction fuel with
  | zero =>
    intro st a j hj1 hj2 hauth
    rw [show primaryRetry trans url ps pc ha st a 0 = (st, .exhausted) from rfl] at hj2
    simp at hj2
    omega
  | succ fuel ih =>
    intro st a j hj1 hj2 hauth
    have hstep : ∀ stX : FetchSt, stX.callIdx = st.callIdx + 1 →
        isAuthRes (trans st.callIdx) = false →
        j < (if a + 1 < MAX_RETRIES then
            primaryRetry trans url ps pc ha
              (recordSleep stX (.backoff (RETRY_DELAY * 2 ^ a))) (a + 1) fuel
           else (stX, PageResult.exhausted)).1.callIdx →
        (if a + 1 < MAX_RETRIES then
            primaryRetry trans url ps pc ha
              (recordSleep stX (.backoff (RETRY_DELAY * 2 ^ a))) (a + 1) fuel
           else (stX, PageResult.exhausted)).2 = .authFail ∧
          (if a + 1 < MAX_RETRIES then
            primaryRetry trans url ps pc ha
              (recordSleep stX (.backoff (RETRY_DELAY * 2 ^ a))) (a + 1) fuel
           else (stX, PageResult.exhausted)).1.callIdx = j + 1 := by
      intro stX hcx hnota hj2x
      by_cases hlt : a + 1 < MAX_RETRIES
      · rw [if_pos hlt] at hj2x ⊢
        rcases Nat.lt_or_ge j (st.callIdx + 1) with hj | hj
        · have hjeq : j = st.callIdx := by omega
          rw [hjeq] at hauth
          rw [hauth] at hnota
          exact absurd hnota (by simp)
        · exact ih (recordSleep stX (.backoff (RETRY_DELAY * 2 ^ a))) (a + 1) j
            (by simp [hcx]; omega) hj2x hauth
      · rw [if_neg hlt] at hj2x ⊢
        have hjeq : j = st.callIdx := by
          rw [hcx] at hj2x
          omega
        rw [hjeq] at hauth
        rw [hauth] at hnota
        exact absurd hnota (by simp)
    cases htr : trans st.callIdx with
    | success data nc =>
      have hg : primaryRetry trans url ps pc ha st a (fuel + 1)
          = (recordCall (preSleep st a pc) url ps, .gotPage data nc) := by
        simp [primaryRetry, htr]
      rw [hg] at hj2
      have hjeq : j = st.callIdx := by
        simp at hj2
        omega
      rw [hjeq, htr] at hauth
      exact absurd hauth (by simp [isAuthRes])
    | unexpectedFault =>
      have hg : primaryRetry trans url ps pc ha st a (fuel + 1)
          = (recordCall (preSleep st a pc) url ps, .unexpected) := by
        simp [primaryRetry, htr]
      rw [hg] at hj2
      have hjeq : j = st.callIdx := by
        simp at hj2
        omega
      rw [hjeq, htr] at hauth
      exact absurd hauth (by simp [isAuthRes])
    | connFault =>
      rw [primaryRetry_transient_step trans url ps pc ha st a fuel (Or.inl htr)] at hj2 ⊢
      exact hstep _ (by simp) (by rw [htr]; rfl) hj2
    | httpError s =>
      by_cases hsauth : s = 401 ∨ s = 403
      · rw [primaryRetry_auth_term trans url ps pc ha st a fuel s htr hsauth] at hj2 ⊢
        have hjeq : j = st.callIdx := by
          simp at hj2
          omega
        exact ⟨rfl, by simp [hjeq]⟩
      · have hs1 : s ≠ 401 := fun h => hsauth (Or.inl h)
        have hs3 : s ≠ 403 := fun h => hsauth (Or.inr h)
        have hnota : isAuthRes (trans st.callIdx) = false := by
          rw [htr]
          simp [isAuthRes, hs1, hs3]
        by_cases hs9 : s = 429
        · subst hs9
          rw [primaryRetry_429_step trans url ps pc ha st a fuel htr] at hj2 ⊢
          exact hstep _ (by simp) hnota hj2
        · by_cases h404c : s = 404 ∧ ha = true ∧ a = MAX_RETRIES - 1 ∧ pc = 1
          · obtain ⟨h4, hh, hatt, hp⟩ := h404c
            subst h4
            rw [primaryRetry_404_term trans url ps pc ha st a fuel htr hh hatt hp]
              at hj2 ⊢
            have hjeq : j = st.callIdx := by
              simp at hj2
              omega
            rw [hjeq] at hauth
            rw [hauth] at hnota
            exact absurd hnota (by simp)
          · rw [primaryRetry_http_step trans url ps pc ha st a fuel s htr hs1 hs3 hs9
              h404c] at hj2 ⊢
            exact hstep _ (by simp) hnota hj2

/-- If a 401/403 answer arrives at any call issued by the primary
pagination loop, the loop stops at exactly that call with the
authReturn outcome. -/
theorem primaryPages_auth_inv (trans : Nat → HttpResult) (url : String)
    (params : Option (List (String × Val))) (paginate : Bool) (ha : Bool) :
    ∀ (fuel : Nat) (st : FetchSt) (allData : List Val) (nc : Option String) (pc j : Nat),
      st.callIdx ≤ j →
      j < (primaryPages trans url params paginate ha st allData nc pc fuel).1.callIdx →
      isAuthRes (trans j) = true →
      (primaryPages trans url params paginate ha st allData nc pc fuel).2 = .authReturn ∧
        (primaryPages trans url params paginate ha st allData nc pc fuel).1.callIdx
          = j + 1 := by
  intro fuel
  induction fuel with
  | zero =>
    intro st allData nc pc j hj1 hj2 hauth
    rw [show primaryPages trans url params paginate ha st allData nc pc 0
        = ({ st with truncWarn := true }, .done allData false) from rfl] at hj2
    simp at hj2
    omega
  | succ fuel ih =>
    intro st allData nc pc j hj1 hj2 hauth
    rcases hpr : primaryRetry trans url
        (mkParams params (if paginate = true ∧ truthyCursor nc = true then nc else none))
        (pc + 1) ha st 0 MAX_RETRIES with ⟨st2, r⟩
    have hinv := primaryRetry_auth_inv trans url
      (mkParams params (if paginate = true ∧ truthyCursor nc = true then nc else none))
      (pc + 1) ha MAX_RETRIES st 0 j hj1
    rw [hpr] at hinv
    cases r with
    | authFail =>
      have hg : primaryPages trans url params paginate ha st allData nc pc (fuel + 1)
          = (st2, .authReturn) := by
        simp [primaryPages, hpr]
      rw [hg] at hj2 ⊢
      obtain ⟨_, hcix⟩ := hinv hj2 hauth
      exact ⟨rfl, hcix⟩
    | unexpected =>
      have hg : primaryPages trans url params paginate ha st allData nc pc (fuel + 1)
          = (st2, .unexpectedReturn allData) := by
        simp [primaryPages, hpr]
      rw [hg] at hj2
      obtain ⟨habs, _⟩ := hinv hj2 hauth
      exact absurd habs (by simp)
    | primary404 =>
      have hg : primaryPages trans url params paginate ha st allData nc pc (fuel + 1)
          = (st2, .done allData true) := by
        simp [primaryPages, hpr]
      rw [hg] at hj2
      obtain ⟨habs, _⟩ := hinv hj2 hauth
      exact absurd habs (by simp)
    | exhausted =>
      by_cases hbr : paginate = false ∨ truthyCursor nc = false
      · have hg : primaryPages trans url params paginate ha st allData nc pc (fuel + 1)
            = (st2, .done allData false) := by
          simp [primaryPages, hpr, if_pos hbr]
        rw [hg] at hj2
        obtain ⟨habs, _⟩ := hinv hj2 hauth
        exact absurd habs (by simp)
      · have hg : primaryPages trans url params paginate ha st allData nc pc (fuel + 1)
            = primaryPages trans url params paginate ha st2 allData nc (pc + 1) fuel := by
          simp [primaryPages, hpr, if_neg hbr]
        rw [hg] at hj2 ⊢
        rcases Nat.lt_or_ge j st2.callIdx with hj | hj
        · obtain ⟨habs, _⟩ := hinv hj hauth
          exact absurd habs (by simp)
        · exact ih st2 allData nc (pc + 1) j hj hj2 hauth
    | gotPage data nc2 =>
      by_cases hbr : paginate = false ∨
          truthyCursor (if paginate = true then nc2 else nc) = false
      · have hg : primaryPages trans url params paginate ha st allData nc pc (fuel + 1)
            = (st2, .done (allData ++ data) false) := by
          simp [primaryPages, hpr, if_pos hbr]
        rw [hg] at hj2
        obtain ⟨habs, _⟩ := hinv hj2 hauth
        exact absurd habs (by simp)
      · have hg : primaryPages trans url params paginate ha st allData nc pc (fuel + 1)
            = primaryPages trans url params paginate ha st2 (allData ++ data)
                (if paginate = true then nc2 else nc) (pc + 1) fuel := by
          simp [primaryPages, hpr, if_neg hbr]
        rw [hg] at hj2 ⊢
        rcases Nat.lt_or_ge j st2.callIdx with hj | hj
        · obtain ⟨habs, _⟩ := hinv hj hauth
          exact absurd habs (by simp)
        · exact ih st2 (allData ++ data) (if paginate = true then nc2 else nc) (pc + 1) j
            hj hj2 hauth

/-- C1 amended: a 401/403 answered to any HTTP attempt of the PRIMARY
candidate (any page of pagination, any retry attempt) aborts the fetch
immediately with the empty record sequence: the auth-rejected call is
the last call issued (call counter stops at j+1), no retries, no
alternate paths and no fallback base URLs follow, and records
accumulated from earlier pages are not returned.  (A 401/403 during an
alternate or fallback candidate only fails that candidate — see the
counterexample.) -/
theorem c1_amended (trans : Nat → HttpResult) (cfg : FetchConfig) (j : Nat)
    (h1 : j < (primaryPhase trans cfg).1.callIdx)
    (h2 : isAuthRes (trans j) = true) :
    (primaryPhase trans cfg).2 = .authReturn ∧
    (primaryPhase trans cfg).1.callIdx = j + 1 ∧
    fetch_with_retry trans cfg = ((primaryPhase trans cfg).1, []) := by
  have h0 : (initSt cfg).callIdx ≤ j := by simp
  obtain ⟨ha2, hb⟩ := primaryPages_auth_inv trans (cfg.baseUrl ++ cfg.endpoint)
    cfg.params cfg.paginate (!cfg.alt_endpoints.isEmpty) maxPages (initSt cfg) [] none 0
    j h0 h1 h2
  have ha3 : (primaryPhase trans cfg).2 = .authReturn := ha2
  have hb3 : (primaryPhase trans cfg).1.callIdx = j + 1 := hb
  refine ⟨ha3, hb3, ?_⟩
  have hpp : primaryPhase trans cfg = ((primaryPhase trans cfg).1, .authReturn) := by
    rw [← ha3]
  rw [fetch_eq_afterPrimary trans cfg _ _ hpp]
  rfl

/-- Transport of the C1 witness: every call is rejected with 401. -/
def transAuth : Nat → HttpResult := fun _ => .httpError 401

/-- Witness for the amended C1: a 401 on the very first primary call
aborts after exactly one HTTP call with the empty result. -/
theorem c1_amended_witness :
    (primaryPhase transAuth cfgC3).2 = .authReturn ∧
    (primaryPhase transAuth cfgC3).1.callIdx = 0 + 1 ∧
    fetch_with_retry transAuth cfgC3 = ((primaryPhase transAuth cfgC3).1, []) :=
  c1_amended transAuth cfgC3 0 (by decide) rfl

/-- Transport of the isolation scenario: dataset policies is rejected
with 401 on every call, every other dataset answers with one record. -/
def transIso : String → Nat → HttpResult := fun name _ =>
  if name == "policies" then .httpError 401
  else .success [.dict [("id", .num 1)]] none

/-- C9: one dataset failing completely does not stop later datasets:
main processes every selected dataset in order, records a success flag
equal to (record count > 0) for each, normalizes each, and completes
with exit code 0.  In the concrete three-dataset scenario where the middle
dataset is rejected with 401 on every call, all three datasets appear
in the summary with flags true, false, true. -/
theorem c9_partial_failure_isolation
    (trans : String → Nat → HttpResult) (pd : Pandas) (writeOk : String → Bool)
    (baseUrl : String) (fallbackUrls : List String)
    (argEndpoints : Option (List String))
    (h : selectEndpoints argEndpoints ≠ []) :
    ((runMain trans pd writeOk baseUrl fallbackUrls argEndpoints).exitCode = 0 ∧
     (runMain trans pd writeOk baseUrl fallbackUrls argEndpoints).collection_status
       = (selectEndpoints argEndpoints).map (fun kv =>
           (kv.1, !(fetch_with_retry (trans kv.1)
             (toFetchConfig kv.2 baseUrl fallbackUrls)).2.isEmpty)) ∧
     (runMain trans pd writeOk baseUrl fallbackUrls argEndpoints).dataframes
       = (selectEndpoints argEndpoints).map (fun kv =>
           (kv.1, dfValue (create_dataframe pd
             (.list (fetch_with_retry (trans kv.1)
               (toFetchConfig kv.2 baseUrl fallbackUrls)).2) kv.1)))) ∧
    (runMain transIso stdPandas (fun _ => true) "B" []
        (some ["sites", "policies", "exclusions"])).collection_status
      = [("sites", true), ("policies", false), ("exclusions", true)] := by
  constructor
  · have hne : (selectEndpoints argEndpoints).isEmpty = false := by
      cases hsel : selectEndpoints argEndpoints with
      | nil => exact absurd hsel h
      | cons a l => rfl
    refine ⟨?_, ?_, ?_⟩ <;> simp [runMain, hne, List.map_map, Function.comp]
  · rfl

/-- Transport of the C10 scenario: one record that pandas cannot turn
into a table. -/
def transC10 : String → Nat → HttpResult := fun _ _ => .success [.num 1] none

/-- C10: the concluding Completed-with-N/M log line takes its
denominator M from the full eight-entry endpoint catalog even when
--endpoints selects a strict subset, and its numerator N counts the
datasets whose table was nonempty and whose CSV write succeeded — it is
computed from the exported tables, not from the per-dataset success
flags.  Concretely: selecting only policies with a transport that
returns one unnormalizable record gives success flag true, yet N = 0
and M = 8. -/
theorem c10_summary_counts
    (trans : String → Nat → HttpResult) (pd : Pandas) (writeOk : String → Bool)
    (baseUrl : String) (fallbackUrls : List String)
    (argEndpoints : Option (List String))
    (h : selectEndpoints argEndpoints ≠ []) :
    ((runMain trans pd writeOk baseUrl fallbackUrls argEndpoints).summary_total
        = ENDPOINTS.length ∧
      ENDPOINTS.length = 8 ∧
      (runMain trans pd writeOk baseUrl fallbackUrls argEndpoints).success_count
        = ((runMain trans pd writeOk baseUrl fallbackUrls argEndpoints).dataframes.filter
            (fun kv => export_to_csv writeOk kv.2 (csvName kv.1))).length) ∧
    ((runMain transC10 stdPandas (fun _ => true) "B" [] (some ["policies"])).summary_total
        = 8 ∧
      (runMain transC10 stdPandas (fun _ => true) "B" []
          (some ["policies"])).success_count = 0 ∧
      (runMain transC10 stdPandas (fun _ => true) "B" []
          (some ["policies"])).collection_status = [("policies", true)]) := by
  constructor
  · have hne : (selectEndpoints argEndpoints).isEmpty = false := by
      cases hsel : selectEndpoints argEndpoints with
      | nil => exact absurd hsel h
      | cons a l => rfl
    refine ⟨?_, rfl, ?_⟩ <;> simp [runMain, hne]
  · exact ⟨rfl, rfl, rfl⟩

/-- Witness for C9 at a concrete single-dataset selection. -/
theorem c9_witness :
    (runMain transIso stdPandas (fun _ => true) "B" [] (some ["sites"])).exitCode = 0 :=
  (((c9_partial_failure_isolation transIso stdPandas (fun _ => true) "B" []
    (some ["sites"]) (by
      intro hh
      have hlen : (selectEndpoints (some ["sites"])).length = 1 := rfl
      rw [hh] at hlen
      simp at hlen)).1).1)

/-- Witness for C10 at a concrete single-dataset selection. -/
theorem c10_witness :
    (runMain transC10 stdPandas (fun _ => true) "B" []
      (some ["policies"])).summary_total = ENDPOINTS.length :=
  (((c10_summary_counts transC10 stdPandas (fun _ => true) "B" []
    (some ["policies"]) (by
      intro hh
      have hlen : (selectEndpoints (some ["policies"])).length = 1 := rfl
      rw [hh] at hlen
      simp at hlen)).1).1)

end Sentinel
